import Mathlib

/-!
Verification development for the `sistema-convenio` repository
(job orchestration and label-based financial extraction pipeline).

The Python sources under `backend/` are shallowly embedded as executable
Lean definitions:

* `backend/services/financial_label_extractor.py` → `FinancialLabelExtractor` section
* `backend/services/pdf_service.py`               → `calculate_batches`
* `backend/services/page_filter.py`               → `PageFilter` section
* `backend/jobs/job_manager.py`                   → `JobManager` section
* `backend/services/safe_convenio_extractor.py`   → `SafeConvenioExtractor` section
* `backend/main_refactored.py` / `backend/main.py` → background-task file handling

Modelling conventions:

* Python `str` is modelled as `List Char` (wrapped in `String` at the API
  boundary); `Decimal`/`float` monetary values are modelled as exact
  rationals `ℚ` (the claims under study do not depend on binary rounding);
  `datetime.now()` is an explicit abstract tick `Nat` passed to each
  operation; exceptions are `Except String`.
* The regular expression
  `\b<label>\b\s*[\:\-]?\s*([0-9]+(?:\.[0-9]+)*(?:,[0-9]+)?)` compiled
  with `re.IGNORECASE` in `FinancialLabelExtractor.__init__` is embedded
  as a direct recursive matcher (`tryMatchAt` / `scanFrom`).  For the
  character classes, `\s` is modelled by the ASCII whitespace set, `\w`
  (used by `\b`) by ASCII alphanumerics, `_`, and the Latin-1 letters
  (covering every character of the vocabulary and of Brazilian bank
  statements), and `re.IGNORECASE` by upper-casing over the same range.
  The pattern has no backtracking ambiguity: the classes `\s`, `[\:\-]`
  and `[0-9]` are pairwise disjoint, so the greedy left-to-right matcher
  below computes exactly the regex match, and `finditer` resumes at each
  match end, which `scanFrom` mirrors.
-/

namespace SistemaConvenio

/-! ### Character classes (`re` module semantics, restricted as noted above) -/

/-- Case folding used for `re.IGNORECASE`: ASCII `a-z` and Latin-1 `à-þ`
(except `÷`) map to their uppercase forms 32 code points below. -/
def upperChar (c : Char) : Char :=
  if 'a' ≤ c ∧ c ≤ 'z' then Char.ofNat (c.toNat - 32)
  else if 0xE0 ≤ c.toNat ∧ c.toNat ≤ 0xFE ∧ c.toNat ≠ 0xF7 then Char.ofNat (c.toNat - 32)
  else c

/-- The `\s` class (ASCII part): space, tab, newline, CR, VT, FF. -/
def isSpaceChar (c : Char) : Bool :=
  c == ' ' || c == '\t' || c == '\n' || c == '\r' || c == '\x0B' || c == '\x0C'

/-- The `[0-9]` class. -/
def isDigitChar (c : Char) : Bool :=
  '0' ≤ c && c ≤ '9'

/-- The `\w` class used by `\b`: ASCII alphanumerics, underscore, and the
Latin-1 letters `À-ÿ` except `×` and `÷`. -/
def isWordChar (c : Char) : Bool :=
  c.isAlphanum || c == '_' ||
    (0xC0 ≤ c.toNat && c.toNat ≤ 0xFF && c.toNat != 0xD7 && c.toNat != 0xF7)

/-- Greedy span of a character class (`takeWhile`/`dropWhile` packaged with
an append equation proved below). -/
def spanP (p : Char → Bool) : List Char → List Char × List Char
  | [] => ([], [])
  | c :: cs =>
    if p c then
      let r := spanP p cs
      (c :: r.1, r.2)
    else ([], c :: cs)

/-! ### The numeral part `[0-9]+(?:\.[0-9]+)*(?:,[0-9]+)?` -/

/-- Greedy `(?:\.[0-9]+)*`: repeatedly consume a dot followed by a nonempty
digit run; stop as soon as this fails.  Structural recursion on `fuel`; every
iteration consumes at least two characters, so any `fuel ≥ s.length` gives
the untruncated regex semantics (callers pass `s.length`). -/
def dotGroups (fuel : Nat) (s : List Char) : List Char × List Char :=
  match fuel with
  | 0 => ([], s)
  | fuel + 1 =>
    match s with
    | [] => ([], [])
    | c :: rest =>
      if c = '.' then
        match spanP isDigitChar rest with
        | ([], _) => ([], c :: rest)
        | (d :: ds, r) =>
          let g := dotGroups fuel r
          ('.' :: d :: (ds ++ g.1), g.2)
      else ([], c :: rest)

/-- Greedy `(?:,[0-9]+)?`: optionally consume a comma followed by a nonempty
digit run. -/
def commaGroup (s : List Char) : List Char × List Char :=
  match s with
  | [] => ([], [])
  | c :: rest =>
    if c = ',' then
      match spanP isDigitChar rest with
      | ([], _) => ([], c :: rest)
      | (d :: ds, r) => (c :: d :: ds, r)
    else ([], c :: rest)

/-- The whole capture group `([0-9]+(?:\.[0-9]+)*(?:,[0-9]+)?)`: returns the
captured numeral and the remaining input, or `none` when no digit starts. -/
def matchNumeral (s : List Char) : Option (List Char × List Char) :=
  match spanP isDigitChar s with
  | ([], _) => none
  | (d :: ds, r) =>
    let g := dotGroups r.length r
    let cg := commaGroup g.2
    some ((d :: ds) ++ g.1 ++ cg.1, cg.2)

/-! ### Label matching and scanning -/

/-- Case-insensitive literal prefix match: returns the matched prefix (with
the input's own characters) and the rest. -/
def stripCI : List Char → List Char → Option (List Char × List Char)
  | [], s => some ([], s)
  | _ :: _, [] => none
  | a :: as, c :: cs =>
    if upperChar c = upperChar a then
      match stripCI as cs with
      | none => none
      | some mr => some (c :: mr.1, mr.2)
    else none

/-- Word-character test on an optional character (`none` = string edge, which
is a word boundary). -/
def isWordOpt : Option Char → Bool
  | some c => isWordChar c
  | none => false

/-- The `[\:\-]?` part. -/
def takeSep : List Char → List Char × List Char
  | [] => ([], [])
  | c :: cs => if c = ':' ∨ c = '-' then ([c], cs) else ([], c :: cs)

/-- Attempt the full pattern `\bLAB\b\s*[\:\-]?\s*(NUM)` at the current
position; `prev` is the character just before the position.  Returns
`(matched label text, gap text, numeral text, rest)`. -/
def tryMatchAt (lab : List Char) (prev : Option Char) (s : List Char) :
    Option (List Char × List Char × List Char × List Char) :=
  if isWordOpt prev then none
  else
    match stripCI lab s with
    | none => none
    | some (labm, r1) =>
      if isWordOpt r1.head? then none
      else
        let a := spanP isSpaceChar r1
        let b := takeSep a.2
        let c := spanP isSpaceChar b.2
        match matchNumeral c.2 with
        | none => none
        | some (num, rest) => some (labm, a.1 ++ b.1 ++ c.1, num, rest)

/-- `finditer` over one line for one label: scan left to right, resume after
each match end.  Returns `(match start, captured numeral)` pairs.  Structural
recursion on `fuel`; every step consumes at least one character (a match's
numeral is nonempty), so any `fuel ≥ s.length + 1` gives the untruncated
scan (callers pass `s.length + 1`). -/
def scanFrom (fuel : Nat) (lab : List Char) (prev : Option Char) (i : Nat)
    (s : List Char) : List (Nat × List Char) :=
  match fuel with
  | 0 => []
  | fuel + 1 =>
    match tryMatchAt lab prev s with
    | some (labm, gap, num, rest) =>
      (i, num) :: scanFrom fuel lab num.getLast?
        (i + labm.length + gap.length + num.length) rest
    | none =>
      match s with
      | [] => []
      | c :: cs => scanFrom fuel lab (some c) (i + 1) cs

/-! ### `FinancialLabelExtractor` data model -/

/-- Python-style whitespace `strip`. -/
def trimChars (s : List Char) : List Char :=
  ((s.dropWhile isSpaceChar).reverse.dropWhile isSpaceChar).reverse

/-- The record dict produced by `extract_from_line` (keys that only one of
the two branches populates are `Option`s). -/
structure LabeledValue where
  rotulo : String
  campo : String
  valor_texto : String
  valor_decimal : Option ℚ
  pagina : Nat
  linha_original : String
  status_validacao : String
  motivo : Option String
  posicao_match : Option Nat
deriving Repr, DecidableEq

/-- `FinancialLabelExtractor.ROTULOS_VALIDOS`, in dict insertion order
(Python 3.7+ dicts preserve it, and `extract_from_line` iterates it). -/
def ROTULOS_VALIDOS : List (String × String) :=
  [("SALDO ANTERIOR", "saldo_anterior"),
   ("SALDO ATUAL", "saldo_atual"),
   ("SALDO", "saldo"),
   ("ENTRADA", "entrada"),
   ("SAIDA", "saida"),
   ("SAÍDA", "saida"),
   ("APLICACAO", "aplicacao"),
   ("APLICAÇÃO", "aplicacao"),
   ("APLICACOES", "aplicacao"),
   ("APLICAÇÕES", "aplicacao"),
   ("RESGATE", "resgate"),
   ("RESGATES", "resgate"),
   ("RENDIMENTO", "rendimento"),
   ("RENDIMENTOS", "rendimento"),
   ("RENDIMENTO BRUTO", "rendimento_bruto"),
   ("RENDIMENTO LIQUIDO", "rendimento_liquido"),
   ("RENDIMENTO LÍQUIDO", "rendimento_liquido"),
   ("IMPOSTO DE RENDA", "ir"),
   ("IR", "ir"),
   ("IOF", "iof"),
   ("TARIFA", "tarifa"),
   ("TARIFA PAGA", "tarifa_paga"),
   ("TARIFA DEVOLVIDA", "tarifa_devolvida"),
   ("VALOR DA COTA", "valor_cota"),
   ("RENTABILIDADE", "rentabilidade")]

/-- `VALOR_MAX_RAZOAVEL = 1_000_000_000`. -/
def VALOR_MAX_RAZOAVEL : ℚ := 1000000000

/-- `VALOR_MIN_RAZOAVEL = -1_000_000_000`. -/
def VALOR_MIN_RAZOAVEL : ℚ := -1000000000

/-! ### `parse_brazilian_number` -/

def digitsToNat (ds : List Char) : Nat :=
  ds.foldl (fun acc c => acc * 10 + (c.toNat - 48)) 0

/-- Python `Decimal(s)` on the normalized text, restricted to the grammar
`digits [ '.' digits ]` with at least one digit (after an optional sign) —
exactly the shapes `parse_brazilian_number`'s normalization can produce from
finite inputs without exponents or specials. -/
def parseDecCore (s : List Char) : Option ℚ :=
  let a := spanP isDigitChar s
  match a.2 with
  | [] => if a.1.isEmpty then none else some (mkRat (digitsToNat a.1) 1)
  | c :: r2 =>
    if c = '.' then
      let b := spanP isDigitChar r2
      if b.2.isEmpty then
        if a.1.isEmpty && b.1.isEmpty then none
        else some (mkRat (digitsToNat a.1 * 10 ^ b.1.length + digitsToNat b.1)
          (10 ^ b.1.length))
      else none
    else none

def parseDecimalLit (s : List Char) : Option ℚ :=
  match s with
  | '-' :: r => (parseDecCore r).map (fun q => -q)
  | '+' :: r => parseDecCore r
  | r => parseDecCore r

/-- `FinancialLabelExtractor.parse_brazilian_number`: strip, turn the
Brazilian format into the US format (drop `.`, then `,` → `.`), parse as a
decimal, and reject values beyond the plausibility bounds (returning `None`,
exactly as the source does for both parse failures and absurd magnitudes). -/
def parse_brazilian_number (texto : List Char) : Option ℚ :=
  let t := trimChars texto
  let norm := (t.filter (fun c => c ≠ '.')).map (fun c => if c = ',' then '.' else c)
  match parseDecimalLit norm with
  | none => none
  | some valor =>
    if VALOR_MAX_RAZOAVEL < valor then none
    else if valor < VALOR_MIN_RAZOAVEL then none
    else some valor

/-! ### `extract_from_line` / `extract_from_text` -/

/-- Build the per-match record: `OK` when `parse_brazilian_number` succeeds
(the dict with `posicao_match`), `SUSPEITO` otherwise (the dict with
`motivo`). -/
def mkLabeledValue (rot campo : String) (pos : Nat) (num : List Char)
    (linha : List Char) (page : Nat) : LabeledValue :=
  match parse_brazilian_number num with
  | some v =>
    { rotulo := rot, campo := campo, valor_texto := String.mk num,
      valor_decimal := some v, pagina := page,
      linha_original := String.mk (trimChars linha),
      status_validacao := "OK", motivo := none, posicao_match := some pos }
  | none =>
    { rotulo := rot, campo := campo, valor_texto := String.mk num,
      valor_decimal := none, pagina := page,
      linha_original := String.mk (trimChars linha),
      status_validacao := "SUSPEITO",
      motivo := some ("Valor fora dos limites razoáveis: " ++ String.mk num),
      posicao_match := none }

/-- `FinancialLabelExtractor.extract_from_line`: try every vocabulary label
(in dict order), emit one record per regex match. -/
def extract_from_line_chars (linha : List Char) (page : Nat) : List LabeledValue :=
  ROTULOS_VALIDOS.flatMap (fun rc =>
    (scanFrom (linha.length + 1) rc.1.data none 0 linha).map
      (fun m => mkLabeledValue rc.1 rc.2 m.1 m.2 linha page))

def extract_from_line (linha : String) (page : Nat) : List LabeledValue :=
  extract_from_line_chars linha.data page

/-- Python `text.split('\n')` (keeps empty pieces; `""` ↦ `[""]`). -/
def splitNl (s : List Char) : List (List Char) :=
  match s with
  | [] => [[]]
  | c :: cs =>
    if c = '\n' then [] :: splitNl cs
    else
      match splitNl cs with
      | [] => [[c]]
      | l :: ls => (c :: l) :: ls

/-- Dict grouping `valores_por_campo[campo].append(valor)`: association list
in first-occurrence key order, each bucket in arrival order. -/
def addToGroup (acc : List (String × List LabeledValue)) (v : LabeledValue) :
    List (String × List LabeledValue) :=
  match acc with
  | [] => [(v.campo, [v])]
  | (k, vs) :: rest =>
    if k = v.campo then (k, vs ++ [v]) :: rest else (k, vs) :: addToGroup rest v

/-- `FinancialLabelExtractor.extract_from_text`: split into lines, extract
from each non-blank line, group by canonical field. -/
def extract_from_text_chars (texto : List Char) (page : Nat) :
    List (String × List LabeledValue) :=
  let todos := (splitNl texto).flatMap
    (fun l => if trimChars l = [] then [] else extract_from_line_chars l page)
  todos.foldl addToGroup []

def extract_from_text (texto : String) (page : Nat) :
    List (String × List LabeledValue) :=
  extract_from_text_chars texto.data page

/-! ### `calculate_totals_safe` -/

def isSuspeito (v : LabeledValue) : Bool :=
  v.status_validacao == "SUSPEITO"

def isOkComValor (v : LabeledValue) : Bool :=
  v.status_validacao == "OK" && v.valor_decimal.isSome

/-- Per-field outcome of `calculate_totals_safe`.  The reason strings the
source interpolates (`"... valores suspeitos detectados"`,
`"Total absurdo: ..."`) are carried as the constructor data they are built
from; `total` covers both the summed branch and the empty `0.0` branch. -/
inductive TotalOutcome where
  | blockedSuspect (suspectCount : Nat)
  | blockedAbsurd (total : ℚ)
  | total (value : ℚ) (okCount : Nat)
deriving Repr, DecidableEq

/-- The list `valores_ok` (parsed decimals of the `OK` records). -/
def okValores (valores : List LabeledValue) : List ℚ :=
  (valores.filter isOkComValor).map (fun v => v.valor_decimal.getD 0)

def calc_field_total (valores : List LabeledValue) : TotalOutcome :=
  let suspeitos := valores.filter isSuspeito
  if suspeitos.isEmpty then
    let oks := okValores valores
    if oks.isEmpty then .total 0 0
    else if VALOR_MAX_RAZOAVEL < |oks.sum| then .blockedAbsurd oks.sum
    else .total oks.sum oks.length
  else .blockedSuspect suspeitos.length

/-- A field's total is withheld (the dict stores `None` plus an `_erro`
reason key). -/
def outcomeBlocked : TotalOutcome → Bool
  | .blockedSuspect _ => true
  | .blockedAbsurd _ => true
  | .total _ _ => false

/-- The reported total: `none` iff blocked. -/
def outcomeTotal : TotalOutcome → Option ℚ
  | .blockedSuspect _ => none
  | .blockedAbsurd _ => none
  | .total v _ => some v

structure TotaisResult where
  totais : List (String × TotalOutcome)
  campos_com_erro : List String
  tem_valores_suspeitos : Bool
deriving Repr, DecidableEq

/-- `FinancialLabelExtractor.calculate_totals_safe`: per-field validation in
dict order; `campos_com_erro` lists the blocked fields in iteration order and
`tem_valores_suspeitos = len(campos_com_erro) > 0`. -/
def calculate_totals_safe (m : List (String × List LabeledValue)) : TotaisResult :=
  let entries := m.map (fun cv => (cv.1, calc_field_total cv.2))
  let erros := (entries.filter (fun e => outcomeBlocked e.2)).map (fun e => e.1)
  { totais := entries, campos_com_erro := erros,
    tem_valores_suspeitos := !erros.isEmpty }

/-! ### `PageFilter` (backend/services/page_filter.py) -/

def isPrefixList : List Char → List Char → Bool
  | [], _ => true
  | _ :: _, [] => false
  | a :: as, b :: bs => a == b && isPrefixList as bs

/-- Python `needle in hay` for strings: contiguous substring occurrence. -/
def containsSub (needle : List Char) : List Char → Bool
  | [] => isPrefixList needle []
  | c :: cs => isPrefixList needle (c :: cs) || containsSub needle cs

/-- `PageFilter.__init__` keyword list, verbatim — note that `"ITAU"`
appears twice (lines 33–34 of the source). -/
def PAGE_KEYWORDS : List String :=
  ["CONVÊNIO", "CONVENIO", "BANCO", "DADOS BANCÁRIOS", "DADOS BANCARIOS",
   "AGÊNCIA", "AGENCIA", "CONTA", "CONTA CORRENTE", "CONTA POUPANÇA",
   "POUPANCA", "CPF", "CNPJ", "INSTITUIÇÃO FINANCEIRA",
   "INSTITUICAO FINANCEIRA", "BANCO DO BRASIL", "BRADESCO", "ITAU", "ITAU",
   "SANTANDER", "CAIXA", "CAIXA ECONOMICA", "NUBANK", "INTER"]

/-- High-priority subset checked on its own in `is_relevant_page`. -/
def HIGH_PRIORITY_KEYWORDS : List String :=
  ["CONVÊNIO", "CONVENIO", "DADOS BANCÁRIOS", "DADOS BANCARIOS"]

/-- `PageFilter.is_relevant_page`: blank pages are irrelevant; otherwise
count keyword-list entries occurring in the upper-cased text (duplicates in
the list are counted separately, as `sum(1 for keyword in self.keywords ...)`
does) and check the high-priority subset. -/
def is_relevant_page_chars (text : List Char) : Bool :=
  if (trimChars text).isEmpty then false
  else
    let tu := text.map upperChar
    let keyword_count := PAGE_KEYWORDS.countP (fun k => containsSub k.data tu)
    let has_high_priority := HIGH_PRIORITY_KEYWORDS.any (fun k => containsSub k.data tu)
    decide (2 ≤ keyword_count) || has_high_priority

def is_relevant_page (text : String) : Bool :=
  is_relevant_page_chars text.data

/-- One OCR page result dict (`{"page": .., "text": .., "has_content": ..}`). -/
structure OcrPage where
  page : Nat
  text : String
  has_content : Bool
deriving Repr, DecidableEq

/-- `PageFilter.filter_pages`: drop pages without content or not relevant. -/
def filter_pages (ocr_results : List OcrPage) : List OcrPage :=
  ocr_results.filterMap (fun pd =>
    if !pd.has_content then none
    else if is_relevant_page pd.text then
      some { page := pd.page, text := pd.text, has_content := true }
    else none)

/-! ### `PDFService.calculate_batches` (backend/services/pdf_service.py) -/

/-- Python `range(start, stop, step)` for nonnegative bounds and positive
step (a zero step raises `ValueError` in Python; modelled as `[]`, unused by
the claims, which require `b > 0`). -/
def pyRange (start stop step : Nat) : List Nat :=
  if _h0 : step = 0 then []
  else if _h1 : start < stop then start :: pyRange (start + step) stop step
  else []
termination_by stop - start
decreasing_by omega

/-- `PDFService.calculate_batches`: `[(start, min(start+b-1, N)) for start in
range(1, N+1, b)]`. -/
def calculate_batches (total_pages : Nat) (batch_size : Nat) : List (Nat × Nat) :=
  (pyRange 1 (total_pages + 1) batch_size).map
    (fun start => (start, min (start + batch_size - 1) total_pages))

/-! ### `JobManager` (backend/jobs/job_manager.py, backend/jobs/models.py)

The job table `self._jobs` / `self._results` is modelled as association
lists in insertion order; `datetime.now()` is an explicit `now : Nat`
argument; a Python `raise ValueError` is `Except.error` (the table is
never mutated before a raise).  The lock serialises operations, so the
state machine below is the sequential semantics of the manager. -/

inductive JobStatus where
  | pending
  | processing
  | done
  | error
  | cancelled
deriving Repr, DecidableEq

structure JobMetadata where
  job_id : String
  filename : String
  file_path : String
  status : JobStatus
  created_at : Nat
  started_at : Option Nat := none
  completed_at : Option Nat := none
  total_pages : Option Nat := none
  processed_pages : Nat := 0
  error_message : Option String := none
deriving Repr, DecidableEq

/-- `JobResult` (models.py); `items` elements are opaque to the claims. -/
structure JobResultR where
  job_id : String
  status : JobStatus
  total_pages : Nat
  relevant_pages : Nat
  records_found : Nat
  processing_time_seconds : Option ℚ := none
  error_message : Option String := none
deriving Repr, DecidableEq

def lookupJ {α : Type} : List (String × α) → String → Option α
  | [], _ => none
  | kv :: rest, id => if kv.1 = id then some kv.2 else lookupJ rest id

def updateJ {α : Type} (m : List (String × α)) (id : String) (f : α → α) :
    List (String × α) :=
  m.map (fun kv => if kv.1 = id then (kv.1, f kv.2) else kv)

/-- Python dict assignment `m[id] = v`: overwrite when present, else append. -/
def setJ {α : Type} (m : List (String × α)) (id : String) (v : α) :
    List (String × α) :=
  if (lookupJ m id).isSome then updateJ m id (fun _ => v) else m ++ [(id, v)]

structure JMState where
  jobs : List (String × JobMetadata) := []
  results : List (String × JobResultR) := []
deriving Repr, DecidableEq

/-- `JobManager.create_job`: raises when the id already exists, else inserts
a PENDING job with `processed_pages = 0`. -/
def create_job (s : JMState) (job_id filename file_path : String) (now : Nat) :
    Except String JMState :=
  match lookupJ s.jobs job_id with
  | some _ => .error ("Job " ++ job_id ++ " já existe")
  | none => .ok { s with jobs := s.jobs ++
      [(job_id, { job_id := job_id, filename := filename, file_path := file_path,
                  status := .pending, created_at := now, processed_pages := 0 })] }

/-- `JobManager.start_job`: raises when the job is missing; otherwise sets
PROCESSING, `started_at`, `total_pages` — with no check of the current
status. -/
def start_job (s : JMState) (job_id : String) (total_pages now : Nat) :
    Except String JMState :=
  match lookupJ s.jobs job_id with
  | none => .error ("Job " ++ job_id ++ " não encontrado")
  | some _ => .ok { s with jobs := updateJ s.jobs job_id (fun j =>
      { j with status := .processing, started_at := some now,
               total_pages := some total_pages }) }

/-- `JobManager.update_progress`: silently returns when the job is missing;
otherwise overwrites `processed_pages` with the given value, unchecked. -/
def update_progress (s : JMState) (job_id : String) (processed_pages : Nat) :
    JMState :=
  match lookupJ s.jobs job_id with
  | none => s
  | some _ => { s with jobs := updateJ s.jobs job_id (fun j =>
      { j with processed_pages := processed_pages }) }

/-- `JobManager.complete_job`: raises when missing; otherwise sets DONE,
`completed_at`, and stores the result — with no check of the current
status. -/
def complete_job (s : JMState) (job_id : String) (result : JobResultR) (now : Nat) :
    Except String JMState :=
  match lookupJ s.jobs job_id with
  | none => .error ("Job " ++ job_id ++ " não encontrado")
  | some _ =>
    let jobs2 := updateJ s.jobs job_id (fun j =>
      { j with status := .done, completed_at := some now })
    .ok { jobs := jobs2, results := setJ s.results job_id result }

/-- `JobManager.fail_job`: silently returns when missing; otherwise sets
ERROR, `completed_at`, `error_message` — with no check of the current
status. -/
def fail_job (s : JMState) (job_id : String) (error_message : String) (now : Nat) :
    JMState :=
  match lookupJ s.jobs job_id with
  | none => s
  | some _ => { s with jobs := updateJ s.jobs job_id (fun j =>
      { j with status := .error, completed_at := some now,
               error_message := some error_message }) }

/-- `JobManager.cancel_job`: silently returns when missing; otherwise sets
CANCELLED and `completed_at` — with no check of the current status, terminal
or not. -/
def cancel_job (s : JMState) (job_id : String) (now : Nat) : JMState :=
  match lookupJ s.jobs job_id with
  | none => s
  | some _ => { s with jobs := updateJ s.jobs job_id (fun j =>
      { j with status := .cancelled, completed_at := some now }) }

/-! ### Operation sequences over the job table (for reachability claims) -/

inductive JMOp where
  | create (id filename file_path : String) (now : Nat)
  | start (id : String) (total_pages now : Nat)
  | progress (id : String) (processed_pages : Nat)
  | complete (id : String) (result : JobResultR) (now : Nat)
  | fail (id : String) (msg : String) (now : Nat)
  | cancel (id : String) (now : Nat)
deriving Repr

/-- One manager call as seen from the job table: a raised `ValueError`
propagates to the caller and leaves the table unchanged. -/
def applyOp (s : JMState) : JMOp → JMState
  | .create id fn fp t =>
    match create_job s id fn fp t with
    | .ok s' => s'
    | .error _ => s
  | .start id total t =>
    match start_job s id total t with
    | .ok s' => s'
    | .error _ => s
  | .progress id n => update_progress s id n
  | .complete id r t =>
    match complete_job s id r t with
    | .ok s' => s'
    | .error _ => s
  | .fail id msg t => fail_job s id msg t
  | .cancel id t => cancel_job s id t

def runOps (s : JMState) (ops : List JMOp) : JMState :=
  ops.foldl applyOp s

/-- Caller discipline under which the `processed_pages ≤ total_pages`
invariant is preserved: `update_progress` never exceeds the known total and
`start_job` never sets a total below the pages already counted.  The manager
itself checks none of this. -/
def opGuard (s : JMState) : JMOp → Prop
  | .start id total _ =>
    ∀ j, lookupJ s.jobs id = some j → j.processed_pages ≤ total
  | .progress id n =>
    ∀ j, lookupJ s.jobs id = some j → ∀ tp, j.total_pages = some tp → n ≤ tp
  | _ => True

inductive GuardedOps : JMState → List JMOp → Prop
  | nil (s : JMState) : GuardedOps s []
  | cons (s : JMState) (op : JMOp) (ops : List JMOp) :
      opGuard s op → GuardedOps (applyOp s op) ops → GuardedOps s (op :: ops)

/-- The §3 invariant: `processed_pages ≤ total_pages` once the total is
known. -/
def PagesInv (s : JMState) : Prop :=
  ∀ id j, lookupJ s.jobs id = some j →
    ∀ tp, j.total_pages = some tp → j.processed_pages ≤ tp

/-! ### `SafeConvenioExtractor` (backend/services/safe_convenio_extractor.py) -/

/-- The movement dict built by `_create_movimentacao_from_label`; the slots
hold `float` or `None` in Python, hence `Option ℚ`.  The constant provenance
keys (`id` uuid, `data = None`, `tipo_documento`, `metodo_extracao`,
`confianca`, `linha_origem = 0`) are omitted; `origem_documento` is
determined by `pagina`. -/
structure Movimentacao where
  descricao_item : String
  entrada : Option ℚ
  saida : Option ℚ
  saldo : Option ℚ
  aplicacao : Option ℚ
  resgate : Option ℚ
  rendimentos : Option ℚ
  tarifa_paga : Option ℚ
  tarifa_devolvida : Option ℚ
  saldo_tarifa : Option ℚ
  pagina : Nat
  documento_id : String
  texto_original : String
  valor_validado : Bool
deriving Repr, DecidableEq

/-- `SafeConvenioExtractor._create_movimentacao_from_label`: the base dict
(entry/exit/balance slots `0.0`, investment slots `None`,
`valor_validado = True`) updated according to the canonical field; the
field's own slot and — for application/yield/returned-fee fields — the
`entrada` slot (resp. `saida` for redemption/paid-fee) receive the parsed
value. -/
def _create_movimentacao_from_label (valor_info : LabeledValue)
    (documento_id : String) (page_num : Nat) : Movimentacao :=
  let v := valor_info.valor_decimal
  let base : Movimentacao :=
    { descricao_item := valor_info.rotulo,
      entrada := some 0, saida := some 0, saldo := some 0,
      aplicacao := none, resgate := none, rendimentos := none,
      tarifa_paga := none, tarifa_devolvida := none, saldo_tarifa := some 0,
      pagina := page_num, documento_id := documento_id,
      texto_original := valor_info.linha_original, valor_validado := true }
  if valor_info.campo = "entrada" then { base with entrada := v }
  else if valor_info.campo = "saida" then { base with saida := v }
  else if valor_info.campo = "saldo" ∨ valor_info.campo = "saldo_atual" ∨
          valor_info.campo = "saldo_anterior" then { base with saldo := v }
  else if valor_info.campo = "aplicacao" then
    { base with aplicacao := v, entrada := v }
  else if valor_info.campo = "resgate" then
    { base with resgate := v, saida := v }
  else if valor_info.campo = "rendimento" ∨ valor_info.campo = "rendimento_bruto" ∨
          valor_info.campo = "rendimento_liquido" then
    { base with rendimentos := v, entrada := v }
  else if valor_info.campo = "tarifa_paga" then
    { base with tarifa_paga := v, saida := v }
  else if valor_info.campo = "tarifa_devolvida" then
    { base with tarifa_devolvida := v, entrada := v }
  else base

/-- The accumulation loop of `_calculate_safe_totals`: each slot read is
`mov.get(key, 0) or 0`, i.e. `None` contributes `0`; only movements with
`valor_validado` are summed; `saldo_final = total_entrada - total_saida`. -/
structure SafeTotalsRaw where
  total_entrada : ℚ
  total_saida : ℚ
  saldo_final : ℚ
  total_aplicacao : ℚ
  total_resgate : ℚ
  total_rendimentos : ℚ
  count_movimentacoes : Nat
deriving Repr, DecidableEq

def rawSafeTotals (movimentacoes : List Movimentacao) : SafeTotalsRaw :=
  let vm := movimentacoes.filter (fun m => m.valor_validado)
  let te := (vm.map (fun m => m.entrada.getD 0)).sum
  let ts := (vm.map (fun m => m.saida.getD 0)).sum
  { total_entrada := te, total_saida := ts, saldo_final := te - ts,
    total_aplicacao := (vm.map (fun m => m.aplicacao.getD 0)).sum,
    total_resgate := (vm.map (fun m => m.resgate.getD 0)).sum,
    total_rendimentos := (vm.map (fun m => m.rendimentos.getD 0)).sum,
    count_movimentacoes := movimentacoes.length }

/-- Final plausibility pass of `_calculate_safe_totals`: a total whose
absolute value exceeds the bound is replaced by `None` and recorded in
`campos_bloqueados` (dict key order).  (The source appends `_erro` keys while
iterating `totais.items()`; the numeric outcome modelled here is what the
loop computes for each key.) -/
def blockAbsurd (x : ℚ) : Option ℚ :=
  if VALOR_MAX_RAZOAVEL < |x| then none else some x

structure SafeTotals where
  total_entrada : Option ℚ
  total_saida : Option ℚ
  saldo_final : Option ℚ
  total_aplicacao : Option ℚ
  total_resgate : Option ℚ
  total_rendimentos : Option ℚ
  count_movimentacoes : Nat
  campos_bloqueados : List String
  tem_valores_suspeitos : Bool
deriving Repr, DecidableEq

def _calculate_safe_totals (movimentacoes : List Movimentacao) : SafeTotals :=
  let r := rawSafeTotals movimentacoes
  let bloqueados :=
    (if (blockAbsurd r.total_entrada).isNone then ["total_entrada"] else []) ++
    (if (blockAbsurd r.total_saida).isNone then ["total_saida"] else []) ++
    (if (blockAbsurd r.saldo_final).isNone then ["saldo_final"] else []) ++
    (if (blockAbsurd r.total_aplicacao).isNone then ["total_aplicacao"] else []) ++
    (if (blockAbsurd r.total_resgate).isNone then ["total_resgate"] else []) ++
    (if (blockAbsurd r.total_rendimentos).isNone then ["total_rendimentos"] else [])
  { total_entrada := blockAbsurd r.total_entrada,
    total_saida := blockAbsurd r.total_saida,
    saldo_final := blockAbsurd r.saldo_final,
    total_aplicacao := blockAbsurd r.total_aplicacao,
    total_resgate := blockAbsurd r.total_resgate,
    total_rendimentos := blockAbsurd r.total_rendimentos,
    count_movimentacoes := r.count_movimentacoes,
    campos_bloqueados := bloqueados,
    tem_valores_suspeitos := !bloqueados.isEmpty }

/-! ### Uploaded-file handling (backend/main_refactored.py, backend/main.py) -/

/-- Job table plus the upload directory (`storage/uploads/{job_id}.pdf`
paths currently on disk). -/
structure SysState where
  jm : JMState
  upload_files : List String
deriving Repr, DecidableEq

/-- `main_refactored.run_ocr_in_background` after the worker returns `r`
(`process_ocr_job` always returns a `JobResult`, DONE or ERROR): DONE →
`complete_job`, otherwise `fail_job`; an exception escaping `complete_job`
is caught by the surrounding `except` and routed to `fail_job`.  Neither
this function nor `process_ocr_job` touches the uploaded file. -/
def run_ocr_in_background (job_id : String) (r : JobResultR) (now : Nat)
    (s : SysState) : SysState :=
  if r.status = .done then
    match complete_job s.jm job_id r now with
    | .ok jm2 => { s with jm := jm2 }
    | .error e => { s with jm := fail_job s.jm job_id e now }
  else
    { s with jm := fail_job s.jm job_id (r.error_message.getD "Erro desconhecido") now }

/-- Modelled from the spec and from the legacy `main.py`
`process_in_background` `finally:` block (the only deletion in the
repository): `if os.path.exists(pdf_path): os.unlink(pdf_path)`. -/
def legacy_cleanup_file (pdf_path : String) (files : List String) : List String :=
  files.filter (fun p => p ≠ pdf_path)

/-! ## C3: terminal jobs and subsequent mutations -/

/-- Helper concrete worker result used by the job-manager scenarios. -/
def sampleResult : JobResultR :=
  { job_id := "j1", status := .done, total_pages := 3, relevant_pages := 2,
    records_found := 5 }

/-- Boolean success test for a manager call that may raise. -/
def exOk {ε α : Type} : Except ε α → Bool
  | .ok _ => true
  | .error _ => false

/-- Job-table fixture: a single already-DONE job `"j1"`. -/
def doneJobMeta : JobMetadata :=
  { job_id := "j1", filename := "doc.pdf", file_path := "storage/uploads/j1.pdf",
    status := .done, created_at := 0, completed_at := some 1 }

def doneJobState : JMState :=
  { jobs := [("j1", doneJobMeta)], results := [] }

/-! ## C6: `start_job` preconditions -/

/-- Job-table fixture: `"j1"` created at tick 0 and started at tick 1 with
`total_pages = 5` — i.e. a PROCESSING job. -/
def processingJobMeta : JobMetadata :=
  { job_id := "j1", filename := "a.pdf", file_path := "up/j1.pdf",
    status := .processing, created_at := 0, started_at := some 1,
    total_pages := some 5 }

def processingJobState : JMState :=
  { jobs := [("j1", processingJobMeta)], results := [] }

/-- Witness fixtures for C2: a field with one SUSPECT and one OK value, and
a clean field. -/
def lvSusp : LabeledValue :=
  { rotulo := "SALDO", campo := "saldo", valor_texto := "9.999.999.999,00",
    valor_decimal := none, pagina := 1,
    linha_original := "SALDO 9.999.999.999,00", status_validacao := "SUSPEITO",
    motivo := some "Valor fora dos limites razoáveis: 9.999.999.999,00",
    posicao_match := none }

def lvOkSaldo : LabeledValue :=
  { rotulo := "SALDO", campo := "saldo", valor_texto := "5,00",
    valor_decimal := some 5, pagina := 1, linha_original := "SALDO 5,00",
    status_validacao := "OK", motivo := none, posicao_match := some 0 }

def lvOkEntrada : LabeledValue :=
  { rotulo := "ENTRADA", campo := "entrada", valor_texto := "10,00",
    valor_decimal := some 10, pagina := 1, linha_original := "ENTRADA 10,00",
    status_validacao := "OK", motivo := none, posicao_match := some 0 }

def mWitnessC2 : List (String × List LabeledValue) :=
  [("saldo", [lvSusp, lvOkSaldo]), ("entrada", [lvOkEntrada])]

/-! ## C8: page relevance -/

/-- The distinct elements of the keyword list (the source lists `"ITAU"`
twice; everything else is unique, as proved in the amended theorem). -/
def PAGE_KEYWORDS_DISTINCT : List String :=
  ["CONVÊNIO", "CONVENIO", "BANCO", "DADOS BANCÁRIOS", "DADOS BANCARIOS",
   "AGÊNCIA", "AGENCIA", "CONTA", "CONTA CORRENTE", "CONTA POUPANÇA",
   "POUPANCA", "CPF", "CNPJ", "INSTITUIÇÃO FINANCEIRA",
   "INSTITUICAO FINANCEIRA", "BANCO DO BRASIL", "BRADESCO", "ITAU",
   "SANTANDER", "CAIXA", "CAIXA ECONOMICA", "NUBANK", "INTER"]

/-! ## C10: movement slots and aggregate entry/exit totals -/

/-- Canonical fields routed into the `entrada` slot by
`_create_movimentacao_from_label`. -/
def CAMPOS_ENTRADA : List String :=
  ["entrada", "aplicacao", "rendimento", "rendimento_bruto",
   "rendimento_liquido", "tarifa_devolvida"]

/-- Canonical fields routed into the `saida` slot. -/
def CAMPOS_SAIDA : List String :=
  ["saida", "resgate", "tarifa_paga"]

/-! ## C9: uploaded-file lifetime in the refactored pipeline -/

/-- System fixture: the PROCESSING job `"j1"` with its uploaded PDF on
disk. -/
def c9State : SysState :=
  { jm := processingJobState, upload_files := ["storage/uploads/j1.pdf"] }

/-! ## C1: label-anchored extraction soundness -/

/-- Shape of the matched separator gap `\s*[\:\-]?\s*`. -/
def GapShape (gap : List Char) : Prop :=
  ∃ w1 sep w2, gap = w1 ++ sep ++ w2 ∧
    (∀ c ∈ w1, isSpaceChar c = true) ∧ (∀ c ∈ w2, isSpaceChar c = true) ∧
    (sep = [] ∨ sep = [':'] ∨ sep = ['-'])

/-- Shape of a captured numeral `[0-9]+(?:\.[0-9]+)*(?:,[0-9]+)?`: nonempty,
starting with a digit, built from digits, periods and commas. -/
def NumShape (num : List Char) : Prop :=
  num ≠ [] ∧ (∃ d, num.head? = some d ∧ isDigitChar d = true) ∧
    ∀ c ∈ num, isDigitChar c = true ∨ c = '.' ∨ c = ','

/-- The character just before a scan position: the last character of the
consumed prefix, or the scan's entry `prev` when nothing was consumed. -/
def lastOr (pre : List Char) (prev : Option Char) : Option Char :=
  match pre.reverse.head? with
  | some c => some c
  | none => prev

/-- Fixture record for the C1 witness: the single value extracted from
`"SALDO 1"`. -/
def lvW : LabeledValue :=
  { rotulo := "SALDO", campo := "saldo", valor_texto := "1",
    valor_decimal := some 1, pagina := 1, linha_original := "SALDO 1",
    status_validacao := "OK", motivo := none, posicao_match := some 0 }


/-! ## Theorems -/

theorem spanP_append (p : Char → Bool) (s : List Char) :
    (spanP p s).1 ++ (spanP p s).2 = s := by
  induction s with
  | nil => rfl
  | cons c cs ih =>
    by_cases h : p c <;> simp [spanP, h, ih]

theorem spanP_fst_mem (p : Char → Bool) (s : List Char) :
    ∀ c ∈ (spanP p s).1, p c := by
  induction s with
  | nil => intro c hc; simp [spanP] at hc
  | cons c cs ih =>
    intro d hd
    by_cases h : p c
    · simp [spanP, h] at hd
      rcases hd with rfl | hd
      · exact h
      · exact ih d hd
    · simp [spanP, h] at hd

theorem spanP_fst_length (p : Char → Bool) (s : List Char) :
    (spanP p s).1.length + (spanP p s).2.length = s.length := by
  have h := congrArg List.length (spanP_append p s)
  simpa using h

theorem spanP_snd_lt (p : Char → Bool) (s : List Char) {c : Char} {l r : List Char}
    (h : spanP p s = (c :: l, r)) : r.length < s.length := by
  have happ := spanP_append p s
  rw [h] at happ
  have hl := congrArg List.length happ
  simp at hl
  omega

/-! ## Association-list lemmas for the job table -/

theorem lookupJ_updateJ {α : Type} (m : List (String × α)) (id id2 : String) (f : α → α) :
    lookupJ (updateJ m id f) id2 =
      if id2 = id then (lookupJ m id2).map f else lookupJ m id2 := by
  induction m with
  | nil => simp [lookupJ, updateJ]
  | cons kv rest ih =>
    simp only [updateJ, List.map_cons] at *
    by_cases h1 : kv.1 = id
    · by_cases h2 : id2 = id
      · subst h2
        simp [lookupJ, h1, ih]
      · have h3 : ¬ kv.1 = id2 := by rw [h1]; exact fun hc => h2 hc.symm
        have h4 : ¬ id = id2 := fun hc => h2 hc.symm
        simp [lookupJ, h1, h3, h4, ih, h2]
    · by_cases h2 : id2 = id
      · subst h2
        have h3 : ¬ kv.1 = id2 := h1
        simp [lookupJ, h1, h3, ih]
      · by_cases h3 : kv.1 = id2
        · simp [lookupJ, h1, h3, ih, h2]
        · simp [lookupJ, h1, h3, ih, h2]

theorem lookupJ_append_single {α : Type} (a : List (String × α)) (id k : String)
    (v w : α) (h : lookupJ (a ++ [(id, v)]) k = some w) :
    lookupJ a k = some w ∨ w = v := by
  induction a with
  | nil =>
    simp only [List.nil_append, lookupJ] at h
    by_cases h1 : id = k
    · simp only [h1, if_true, Option.some.injEq] at h
      right
      exact h.symm
    · simp [h1] at h
  | cons kv rest ih =>
    simp only [List.cons_append, lookupJ] at h ⊢
    by_cases h1 : kv.1 = k
    · simp only [h1, if_true, Option.some.injEq] at h ⊢
      left
      exact h
    · simp only [h1, if_false] at h ⊢
      exact ih h

/-- C3 (counterexample): the claim says a job in a terminal state rejects
every later mutation, in particular `cancel_job`.  In the code no mutating
operation inspects the status: after `create_job` + `complete_job` the job
`"j1"` is DONE, yet `cancel_job` changes its status to CANCELLED (and
refreshes `completed_at`), so the terminal state was mutated. -/
theorem C3_counterexample_cancel_mutates_done_job :
    ((lookupJ (runOps {} [JMOp.create "j1" "doc.pdf" "storage/uploads/j1.pdf" 0,
        JMOp.complete "j1" sampleResult 1]).jobs "j1").map JobMetadata.status =
      some JobStatus.done) ∧
    ((lookupJ (cancel_job (runOps {} [JMOp.create "j1" "doc.pdf" "storage/uploads/j1.pdf" 0,
        JMOp.complete "j1" sampleResult 1]) "j1" 2).jobs "j1").map JobMetadata.status =
      some JobStatus.cancelled) ∧
    JobStatus.cancelled ≠ JobStatus.done := by
  refine ⟨by decide, by decide, by decide⟩

/-- C3 (amended): `JobManager` mutating operations check only that the job
id exists, never its status.  On any existing job — terminal or not —
`cancel_job` overwrites the status with CANCELLED, `fail_job` with ERROR,
`update_progress` overwrites the counter, and `start_job` / `complete_job`
succeed and overwrite; only a missing id is rejected or a no-op. -/
theorem C3_amended_mutations_ignore_terminal_status
    (s : JMState) (id : String) (t : Nat) (j : JobMetadata)
    (h : lookupJ s.jobs id = some j) :
    (lookupJ (cancel_job s id t).jobs id =
      some { j with status := .cancelled, completed_at := some t }) ∧
    (∀ msg, lookupJ (fail_job s id msg t).jobs id =
      some { j with status := .error, completed_at := some t, error_message := some msg }) ∧
    (∀ n, lookupJ (update_progress s id n).jobs id =
      some { j with processed_pages := n }) ∧
    (∀ total, ∃ s2, start_job s id total t = .ok s2 ∧
      lookupJ s2.jobs id =
        some { j with status := .processing, started_at := some t, total_pages := some total }) ∧
    (∀ r, ∃ s2, complete_job s id r t = .ok s2 ∧
      lookupJ s2.jobs id = some { j with status := .done, completed_at := some t }) := by
  refine ⟨?_, fun msg => ?_, fun n => ?_, fun total => ?_, fun r => ?_⟩
  · simp [cancel_job, h, lookupJ_updateJ]
  · simp [fail_job, h, lookupJ_updateJ]
  · simp [update_progress, h, lookupJ_updateJ]
  · refine ⟨{ s with jobs := updateJ s.jobs id (fun j => { j with status := .processing, started_at := some t, total_pages := some total }) }, ?_, ?_⟩
    · simp [start_job, h]
    · simp [lookupJ_updateJ, h]
  · refine ⟨{ jobs := updateJ s.jobs id (fun j => { j with status := .done, completed_at := some t }), results := setJ s.results id r }, ?_, ?_⟩
    · simp [complete_job, h]
    · simp [lookupJ_updateJ, h]

/-- Witness for the amended C3 at a concrete DONE job. -/
theorem C3_amended_mutations_ignore_terminal_status_witness :
    lookupJ (cancel_job doneJobState "j1" 2).jobs "j1" =
      some { doneJobMeta with status := .cancelled, completed_at := some 2 } :=
  (C3_amended_mutations_ignore_terminal_status doneJobState "j1" 2 doneJobMeta
    (by decide)).1

/-- C6 (counterexample): the claim says `start_job` on a job that is not
PENDING (e.g. already PROCESSING) is rejected (InvalidState) with the state
unchanged.  In the code, `create_job` + `start_job(total=5)` yields the
PROCESSING fixture, and a second `start_job(total=7)` at tick 2 nevertheless
succeeds and overwrites `total_pages` and `started_at`. -/
theorem C6_counterexample_restart_processing_job :
    (runOps {} [JMOp.create "j1" "a.pdf" "up/j1.pdf" 0, JMOp.start "j1" 5 1] =
      processingJobState) ∧
    (exOk (start_job processingJobState "j1" 7 2) = true) ∧
    (applyOp processingJobState (JMOp.start "j1" 7 2) =
      { jobs := [("j1", { processingJobMeta with started_at := some 2, total_pages := some 7 })],
        results := [] }) ∧
    (applyOp processingJobState (JMOp.start "j1" 7 2) ≠ processingJobState) := by
  refine ⟨by decide, by decide, by decide, by decide⟩

/-- C6 (amended): `start_job` requires only that the job exists.  A missing
id fails with the NotFound-style `ValueError`; an existing job in any state
is (re)started: status PROCESSING, `total_pages` and `started_at`
recorded. -/
theorem C6_amended_start_requires_only_existence
    (s : JMState) (id : String) (total t : Nat) :
    (lookupJ s.jobs id = none →
      start_job s id total t = .error ("Job " ++ id ++ " não encontrado")) ∧
    (∀ j, lookupJ s.jobs id = some j →
      ∃ s2, start_job s id total t = .ok s2 ∧
        lookupJ s2.jobs id =
          some { j with status := .processing, started_at := some t, total_pages := some total } ∧
        s2.results = s.results) := by
  constructor
  · intro h
    simp [start_job, h]
  · intro j h
    refine ⟨{ s with jobs := updateJ s.jobs id (fun j => { j with status := .processing, started_at := some t, total_pages := some total }) }, ?_, ?_, rfl⟩
    · simp [start_job, h]
    · simp [lookupJ_updateJ, h]

/-- Witness for the amended C6: both conjuncts at concrete states. -/
theorem C6_amended_start_requires_only_existence_witness :
    (start_job {} "nope" 1 0 = .error "Job nope não encontrado") ∧
    (∃ s2, start_job processingJobState "j1" 7 2 = .ok s2 ∧
      lookupJ s2.jobs "j1" =
        some { processingJobMeta with status := .processing, started_at := some 2, total_pages := some 7 } ∧
      s2.results = []) :=
  ⟨(C6_amended_start_requires_only_existence {} "nope" 1 0).1 (by decide),
   (C6_amended_start_requires_only_existence processingJobState "j1" 7 2).2
     processingJobMeta (by decide)⟩

/-! ## C7: the `processed_pages ≤ total_pages` invariant -/

/-- C7 (counterexample): the invariant is not enforced by the manager.  The
reachable sequence `create` → `start(total_pages=5)` → `update_progress(10)`
leaves `"j1"` with `processed_pages = 10 > total_pages = 5`. -/
theorem C7_counterexample_progress_exceeds_total :
    ((lookupJ (runOps {} [JMOp.create "j1" "a.pdf" "p.pdf" 0, JMOp.start "j1" 5 1,
        JMOp.progress "j1" 10]).jobs "j1").map
        (fun j => (j.processed_pages, j.total_pages)) = some (10, some 5)) ∧
    ¬ PagesInv (runOps {} [JMOp.create "j1" "a.pdf" "p.pdf" 0, JMOp.start "j1" 5 1,
        JMOp.progress "j1" 10]) := by
  constructor
  · decide
  · intro hInv
    have h10 := hInv "j1"
      { job_id := "j1", filename := "a.pdf", file_path := "p.pdf",
        status := .processing, created_at := 0, started_at := some 1,
        total_pages := some 5, processed_pages := 10 }
      (by decide) 5 rfl
    exact absurd h10 (by decide)

/-- Preservation of the pages invariant by one guarded operation. -/
theorem pagesInv_applyOp (s : JMState) (op : JMOp)
    (hInv : PagesInv s) (hg : opGuard s op) : PagesInv (applyOp s op) := by
  cases op with
  | create id fn fp t =>
    simp only [applyOp, create_job]
    cases hl : lookupJ s.jobs id with
    | some j => exact hInv
    | none =>
      intro id2 j2 hLook tp htp
      rcases lookupJ_append_single _ _ _ _ _ hLook with hOld | hNew
      · exact hInv id2 j2 hOld tp htp
      · rw [hNew] at htp
        cases htp
  | start id total t =>
    simp only [applyOp, start_job]
    cases hl : lookupJ s.jobs id with
    | none => exact hInv
    | some j0 =>
      intro id2 j2 hLook tp htp
      simp only [lookupJ_updateJ] at hLook
      by_cases hid : id2 = id
      · rw [if_pos hid, hid, hl] at hLook
        simp only [Option.map_some', Option.some.injEq] at hLook
        subst hLook
        have htp2 : total = tp := by simpa using htp
        have hle := hg j0 hl
        simp only [htp2] at hle
        simpa using hle
      · rw [if_neg hid] at hLook
        exact hInv id2 j2 hLook tp htp
  | progress id n =>
    simp only [applyOp, update_progress]
    cases hl : lookupJ s.jobs id with
    | none => exact hInv
    | some j0 =>
      intro id2 j2 hLook tp htp
      simp only [lookupJ_updateJ] at hLook
      by_cases hid : id2 = id
      · rw [if_pos hid, hid, hl] at hLook
        simp only [Option.map_some', Option.some.injEq] at hLook
        subst hLook
        simp only at htp
        exact hg j0 hl tp htp
      · rw [if_neg hid] at hLook
        exact hInv id2 j2 hLook tp htp
  | complete id r t =>
    simp only [applyOp, complete_job]
    cases hl : lookupJ s.jobs id with
    | none => exact hInv
    | some j0 =>
      intro id2 j2 hLook tp htp
      simp only [lookupJ_updateJ] at hLook
      by_cases hid : id2 = id
      · rw [if_pos hid] at hLook
        cases hl2 : lookupJ s.jobs id2 with
        | none => rw [hl2] at hLook; cases hLook
        | some j1 =>
          rw [hl2] at hLook
          simp only [Option.map_some', Option.some.injEq] at hLook
          subst hLook
          exact hInv id2 j1 hl2 tp htp
      · rw [if_neg hid] at hLook
        exact hInv id2 j2 hLook tp htp
  | fail id msg t =>
    simp only [applyOp, fail_job]
    cases hl : lookupJ s.jobs id with
    | none => exact hInv
    | some j0 =>
      intro id2 j2 hLook tp htp
      simp only [lookupJ_updateJ] at hLook
      by_cases hid : id2 = id
      · rw [if_pos hid] at hLook
        cases hl2 : lookupJ s.jobs id2 with
        | none => rw [hl2] at hLook; cases hLook
        | some j1 =>
          rw [hl2] at hLook
          simp only [Option.map_some', Option.some.injEq] at hLook
          subst hLook
          exact hInv id2 j1 hl2 tp htp
      · rw [if_neg hid] at hLook
        exact hInv id2 j2 hLook tp htp
  | cancel id t =>
    simp only [applyOp, cancel_job]
    cases hl : lookupJ s.jobs id with
    | none => exact hInv
    | some j0 =>
      intro id2 j2 hLook tp htp
      simp only [lookupJ_updateJ] at hLook
      by_cases hid : id2 = id
      · rw [if_pos hid] at hLook
        cases hl2 : lookupJ s.jobs id2 with
        | none => rw [hl2] at hLook; cases hLook
        | some j1 =>
          rw [hl2] at hLook
          simp only [Option.map_some', Option.some.injEq] at hLook
          subst hLook
          exact hInv id2 j1 hl2 tp htp
      · rw [if_neg hid] at hLook
        exact hInv id2 j2 hLook tp htp

/-- C7 (amended): the manager itself never enforces
`processed_pages ≤ total_pages` (see the counterexample); the invariant does
hold in every state reachable by operation sequences observing the caller
discipline `opGuard` (progress values within the known total, restarts not
below the current counter), starting from any state satisfying it — in
particular from the empty job table. -/
theorem C7_amended_pages_invariant_under_guarded_ops :
    PagesInv {} ∧
    ∀ (s : JMState) (ops : List JMOp), PagesInv s → GuardedOps s ops →
      PagesInv (runOps s ops) := by
  constructor
  · intro id j h tp htp
    cases h
  · intro s ops
    induction ops generalizing s with
    | nil => intro hInv _; exact hInv
    | cons op rest ih =>
      intro hInv hg
      cases hg with
      | cons _ _ _ hop hrest =>
        exact ih (applyOp s op) (pagesInv_applyOp s op hInv hop) hrest

/-- Witness for the amended C7: the guarded run `create` → `start(5)` →
`update_progress(3)` satisfies the invariant. -/
theorem C7_amended_pages_invariant_under_guarded_ops_witness :
    PagesInv (runOps {} [JMOp.create "j1" "a.pdf" "p.pdf" 0, JMOp.start "j1" 5 1,
      JMOp.progress "j1" 3]) := by
  refine C7_amended_pages_invariant_under_guarded_ops.2 {} _
    C7_amended_pages_invariant_under_guarded_ops.1 ?_
  refine GuardedOps.cons _ _ _ trivial ?_
  refine GuardedOps.cons _ _ _ ?_ ?_
  · intro j hj
    have h3 : lookupJ (applyOp {} (JMOp.create "j1" "a.pdf" "p.pdf" 0)).jobs "j1" =
        some { job_id := "j1", filename := "a.pdf", file_path := "p.pdf",
               status := .pending, created_at := 0 } := by decide
    rw [h3] at hj
    injection hj with h4
    rw [← h4]
    exact Nat.zero_le 5
  · refine GuardedOps.cons _ _ _ ?_ (GuardedOps.nil _)
    intro j hj tp htp
    have h3 : lookupJ (applyOp (applyOp {} (JMOp.create "j1" "a.pdf" "p.pdf" 0))
        (JMOp.start "j1" 5 1)).jobs "j1" =
        some { job_id := "j1", filename := "a.pdf", file_path := "p.pdf",
               status := .processing, created_at := 0, started_at := some 1,
               total_pages := some 5 } := by decide
    rw [h3] at hj
    injection hj with h4
    rw [← h4] at htp
    have h5 : (5 : Nat) = tp := by simpa using htp
    omega

/-! ## C2: `calculate_totals_safe` blocking semantics -/

theorem lookupJ_map_of_mem {α β : Type} (m : List (String × α)) (g : α → β)
    (k : String) (v : α) (hnd : (m.map Prod.fst).Nodup) (hmem : (k, v) ∈ m) :
    lookupJ (m.map (fun cv => (cv.1, g cv.2))) k = some (g v) := by
  induction m with
  | nil => cases hmem
  | cons kv rest ih =>
    simp only [List.map_cons, List.nodup_cons] at hnd
    rcases List.mem_cons.mp hmem with heq | hrest
    · subst heq
      simp [lookupJ]
    · have hk : ¬ kv.1 = k := by
        intro hc
        exact hnd.1 (hc ▸ (List.mem_map.mpr ⟨(k, v), hrest, rfl⟩))
      simp only [List.map_cons, lookupJ, hk, if_false]
      exact ih hnd.2 hrest

/-- C2: per-field blocking in `calculate_totals_safe`.  For every field of
the input: any SUSPECT value blocks the field's total (reason = suspect
count) no matter how many OK values coexist; with no SUSPECT values the
total is the sum of the OK values, except that a sum beyond the plausibility
bound is blocked (reason = the absurd total); and `tem_valores_suspeitos` is
true iff at least one field was blocked. -/
theorem C2_suspect_values_block_field_totals
    (m : List (String × List LabeledValue)) (campo : String)
    (valores : List LabeledValue)
    (hnd : (m.map Prod.fst).Nodup) (hmem : (campo, valores) ∈ m) :
    (lookupJ (calculate_totals_safe m).totais campo =
      some (calc_field_total valores)) ∧
    ((∃ v ∈ valores, v.status_validacao = "SUSPEITO") →
      calc_field_total valores =
        .blockedSuspect (valores.filter isSuspeito).length ∧
      outcomeTotal (calc_field_total valores) = none) ∧
    ((∀ v ∈ valores, v.status_validacao ≠ "SUSPEITO") →
      (VALOR_MAX_RAZOAVEL < |(okValores valores).sum| →
        calc_field_total valores = .blockedAbsurd (okValores valores).sum ∧
        outcomeTotal (calc_field_total valores) = none) ∧
      (¬ VALOR_MAX_RAZOAVEL < |(okValores valores).sum| →
        outcomeTotal (calc_field_total valores) = some (okValores valores).sum)) ∧
    ((calculate_totals_safe m).tem_valores_suspeitos = true ↔
      ∃ cv ∈ m, outcomeBlocked (calc_field_total cv.2) = true) := by
  refine ⟨?_, ?_, ?_, ?_⟩
  · exact lookupJ_map_of_mem m calc_field_total campo valores hnd hmem
  · rintro ⟨v, hv, hs⟩
    have hmemf : v ∈ valores.filter isSuspeito :=
      List.mem_filter.mpr ⟨hv, by simp [isSuspeito, hs]⟩
    have hne : (valores.filter isSuspeito).isEmpty = false := by
      rw [List.isEmpty_eq_false]
      exact List.ne_nil_of_mem hmemf
    constructor
    · simp only [calc_field_total, hne, Bool.false_eq_true, if_false]
    · simp only [calc_field_total, hne, Bool.false_eq_true, if_false, outcomeTotal]
  · intro hns
    have hnil : valores.filter isSuspeito = [] := by
      rw [List.filter_eq_nil_iff]
      intro v hv
      simp [isSuspeito, hns v hv]
    have hemp : (valores.filter isSuspeito).isEmpty = true := by
      rw [hnil]; rfl
    constructor
    · intro habs
      have hoknil : (okValores valores).isEmpty = false := by
        rw [List.isEmpty_eq_false]
        intro hc
        rw [hc] at habs
        simp only [List.sum_nil, abs_zero] at habs
        exact absurd habs (by norm_num [VALOR_MAX_RAZOAVEL])
      constructor
      · simp only [calc_field_total, hemp, if_true, hoknil, Bool.false_eq_true,
          if_false, habs]
      · simp only [calc_field_total, hemp, if_true, hoknil, Bool.false_eq_true,
          if_false, habs, if_true, outcomeTotal]
    · intro hnabs
      by_cases hok : (okValores valores).isEmpty = true
      · have hoknil : okValores valores = [] := List.isEmpty_iff.mp hok
        simp [calc_field_total, hemp, hoknil, outcomeTotal]
      · simp only [Bool.not_eq_true] at hok
        simp only [calc_field_total, hemp, if_true, hok, Bool.false_eq_true,
          if_false, hnabs, outcomeTotal]
  · have hiff : ((m.map (fun cv => (cv.1, calc_field_total cv.2))).filter
        (fun e => outcomeBlocked e.2)) = [] ↔
        ∀ cv ∈ m, outcomeBlocked (calc_field_total cv.2) = false := by
      rw [List.filter_eq_nil_iff]
      constructor
      · intro h cv hcv
        have h2 := h _ (List.mem_map.mpr ⟨cv, hcv, rfl⟩)
        simpa using h2
      · intro h e he
        rcases List.mem_map.mp he with ⟨cv, hcv, rfl⟩
        simpa using h cv hcv
    simp only [calculate_totals_safe]
    constructor
    · intro h
      by_contra hno
      push_neg at hno
      have hall : ∀ cv ∈ m, outcomeBlocked (calc_field_total cv.2) = false := by
        intro cv hcv
        have h2 := hno cv hcv
        simpa using h2
      rw [hiff.mpr hall] at h
      simp at h
    · rintro ⟨cv, hcv, hb⟩
      have hmem2 : (cv.1, calc_field_total cv.2) ∈
          (m.map (fun cv => (cv.1, calc_field_total cv.2))).filter
            (fun e => outcomeBlocked e.2) :=
        List.mem_filter.mpr ⟨List.mem_map.mpr ⟨cv, hcv, rfl⟩, hb⟩
      have hne2 : (((m.map (fun cv => (cv.1, calc_field_total cv.2))).filter
          (fun e => outcomeBlocked e.2)).map Prod.fst) ≠ [] := by
        intro hc
        rw [List.map_eq_nil_iff] at hc
        rw [hc] at hmem2
        cases hmem2
      simp only [Bool.not_eq_true', List.isEmpty_eq_false]
      exact hne2

/-- Witness for C2: the mixed SUSPECT/OK field is blocked and the document
flag is raised. -/
theorem C2_suspect_values_block_field_totals_witness :
    outcomeTotal (calc_field_total [lvSusp, lvOkSaldo]) = none ∧
    (calculate_totals_safe mWitnessC2).tem_valores_suspeitos = true :=
  ⟨((C2_suspect_values_block_field_totals mWitnessC2 "saldo" [lvSusp, lvOkSaldo]
      (by decide) (by decide)).2.1 ⟨lvSusp, by decide, rfl⟩).2,
   ((C2_suspect_values_block_field_totals mWitnessC2 "saldo" [lvSusp, lvOkSaldo]
      (by decide) (by decide)).2.2.2).mpr
     ⟨("saldo", [lvSusp, lvOkSaldo]), by decide, by decide⟩⟩

theorem isPrefixList_mem (n s : List Char) (h : isPrefixList n s = true) :
    ∀ c ∈ n, c ∈ s := by
  induction n generalizing s with
  | nil => intro c hc; cases hc
  | cons a as ih =>
    cases s with
    | nil => cases h
    | cons b bs =>
      simp only [isPrefixList, Bool.and_eq_true, beq_iff_eq] at h
      intro c hc
      rcases List.mem_cons.mp hc with rfl | hc2
      · rw [h.1]; exact List.mem_cons_self _ _
      · exact List.mem_cons_of_mem _ (ih bs h.2 c hc2)

theorem containsSub_mem (n hay : List Char) (h : containsSub n hay = true) :
    ∀ c ∈ n, c ∈ hay := by
  induction hay with
  | nil =>
    cases n with
    | nil => intro c hc; cases hc
    | cons a as => cases h
  | cons b bs ih =>
    simp only [containsSub, Bool.or_eq_true] at h
    rcases h with h1 | h2
    · exact isPrefixList_mem n _ h1
    · intro c hc
      exact List.mem_cons_of_mem _ (ih h2 c hc)

theorem trimChars_eq_nil_all_space (s : List Char) (h : trimChars s = []) :
    ∀ c ∈ s, isSpaceChar c = true := by
  unfold trimChars at h
  rw [List.reverse_eq_nil_iff] at h
  rw [List.dropWhile_eq_nil_iff] at h
  intro c hc
  rcases List.mem_append.mp
      ((List.takeWhile_append_dropWhile (p := isSpaceChar) (l := s)) ▸ hc) with h1 | h2
  · exact List.mem_takeWhile_imp h1
  · exact h c (List.mem_reverse.mpr h2)

theorem isSpaceChar_upperChar (c : Char) (h : isSpaceChar c = true) :
    isSpaceChar (upperChar c) = true := by
  simp only [isSpaceChar, Bool.or_eq_true, beq_iff_eq] at h
  rcases h with ((((rfl | rfl) | rfl) | rfl) | rfl) | rfl <;> decide

theorem no_keyword_in_blank (text : List Char) (hTrim : trimChars text = [])
    (k : String) (hk : k.data.any (fun c => !isSpaceChar c) = true) :
    containsSub k.data (text.map upperChar) = false := by
  by_contra hc
  rw [Bool.not_eq_false] at hc
  rcases List.any_eq_true.mp hk with ⟨c0, hc0mem, hc0⟩
  have hin := containsSub_mem _ _ hc c0 hc0mem
  rcases List.mem_map.mp hin with ⟨c1, hc1mem, rfl⟩
  have hsp := isSpaceChar_upperChar c1 (trimChars_eq_nil_all_space text hTrim c1 hc1mem)
  rw [hsp] at hc0
  cases hc0

theorem countP_keywords_split (q : String → Bool) :
    PAGE_KEYWORDS.countP q =
      PAGE_KEYWORDS_DISTINCT.countP q + (if q "ITAU" = true then 1 else 0) := by
  by_cases hq : q "ITAU" = true <;>
    simp [PAGE_KEYWORDS, PAGE_KEYWORDS_DISTINCT, List.countP_cons,
      List.countP_nil, hq] <;> omega

theorem countP_distinct_itau_pos (q : String → Bool) (hq : q "ITAU" = true) :
    1 ≤ PAGE_KEYWORDS_DISTINCT.countP q := by
  simp [PAGE_KEYWORDS_DISTINCT, List.countP_cons, List.countP_nil, hq]
  omega

/-- C8 (counterexample): the claim's "at least 2 distinct keywords or a
high-priority keyword" characterization fails.  The text `"ITAU"` contains
exactly one distinct keyword and no high-priority keyword, yet the page is
relevant, because the keyword list counts its duplicated `"ITAU"` entry
twice. -/
theorem C8_counterexample_single_itau_page_relevant :
    is_relevant_page "ITAU" = true ∧
    PAGE_KEYWORDS_DISTINCT.filter
      (fun k => containsSub k.data ("ITAU".data.map upperChar)) = ["ITAU"] ∧
    HIGH_PRIORITY_KEYWORDS.all
      (fun k => !containsSub k.data ("ITAU".data.map upperChar)) = true := by
  refine ⟨by decide, by decide, by decide⟩

/-- C8 (amended): a non-blank page is relevant iff it contains at least 2
distinct keywords, or contains `ITAU` (which the source's keyword list holds
twice, so it alone reaches the count of 2), or contains a high-priority
keyword; blank pages are never relevant, and `filter_pages` keeps only
relevant pages with content. -/
theorem C8_amended_relevance_characterization :
    (∀ text : String, is_relevant_page text = true ↔
      (2 ≤ PAGE_KEYWORDS_DISTINCT.countP
          (fun k => containsSub k.data (text.data.map upperChar)) ∨
       containsSub "ITAU".data (text.data.map upperChar) = true ∨
       HIGH_PRIORITY_KEYWORDS.any
          (fun k => containsSub k.data (text.data.map upperChar)) = true)) ∧
    (∀ text : String, trimChars text.data = [] → is_relevant_page text = false) ∧
    (∀ (results : List OcrPage) (p : OcrPage), p ∈ filter_pages results →
      is_relevant_page p.text = true ∧ p.has_content = true) ∧
    PAGE_KEYWORDS_DISTINCT.Nodup ∧
    PAGE_KEYWORDS_DISTINCT ⊆ PAGE_KEYWORDS ∧ PAGE_KEYWORDS ⊆ PAGE_KEYWORDS_DISTINCT := by
  have hblank : ∀ text : String, trimChars text.data = [] →
      is_relevant_page text = false := by
    intro text h
    simp [is_relevant_page, is_relevant_page_chars, h]
  refine ⟨?_, hblank, ?_, by decide, by decide, by decide⟩
  · intro text
    by_cases hTrim : trimChars text.data = []
    · rw [hblank text hTrim]
      simp only [Bool.false_eq_true, false_iff]
      intro hRHS
      have hnokw : ∀ k ∈ PAGE_KEYWORDS,
          containsSub k.data (text.data.map upperChar) = false := by
        intro k hk
        refine no_keyword_in_blank text.data hTrim k ?_
        revert hk
        revert k
        decide
      have hsubD : ∀ x ∈ PAGE_KEYWORDS_DISTINCT, x ∈ PAGE_KEYWORDS := by decide
      have hsubH : ∀ x ∈ HIGH_PRIORITY_KEYWORDS, x ∈ PAGE_KEYWORDS := by decide
      rcases hRHS with h2 | hIT | hHigh
      · rcases List.countP_pos_iff.mp
            (Nat.lt_of_lt_of_le (by norm_num) h2) with ⟨k, hkmem, hkq⟩
        rw [hnokw k (hsubD k hkmem)] at hkq
        cases hkq
      · have h3 : ("ITAU" : String) ∈ PAGE_KEYWORDS := by decide
        rw [hnokw _ h3] at hIT
        cases hIT
      · rcases List.any_eq_true.mp hHigh with ⟨k, hkmem, hkq⟩
        rw [hnokw k (hsubH k hkmem)] at hkq
        cases hkq
    · have hTrimB : (trimChars text.data).isEmpty = false :=
        List.isEmpty_eq_false.mpr hTrim
      simp only [is_relevant_page, is_relevant_page_chars, hTrimB,
        Bool.false_eq_true, if_false, Bool.or_eq_true, decide_eq_true_eq]
      rw [countP_keywords_split]
      by_cases hIT : containsSub "ITAU".data (text.data.map upperChar) = true
      · have h1 := countP_distinct_itau_pos
          (fun k => containsSub k.data (text.data.map upperChar)) hIT
        simp only [hIT, if_true]
        constructor
        · intro _
          right; left; trivial
        · intro _
          left
          omega
      · simp only [hIT, if_false, Bool.false_eq_true, add_zero]
        constructor
        · intro h
          rcases h with h1 | h2
          · left; exact h1
          · right; right; exact h2
        · intro h
          rcases h with h1 | h2 | h3
          · left; exact h1
          · exact h2.elim
          · right; exact h3
  · intro results p hp
    simp only [filter_pages, List.mem_filterMap] at hp
    rcases hp with ⟨q, hq, hqp⟩
    by_cases h1 : q.has_content
    · simp only [h1, Bool.not_true, Bool.false_eq_true, if_false] at hqp
      by_cases h2 : is_relevant_page q.text
      · simp only [h2, if_true, Option.some.injEq] at hqp
        rw [← hqp]
        exact ⟨h2, rfl⟩
      · simp only [h2, Bool.false_eq_true, if_false] at hqp
        cases hqp
    · simp only [h1, Bool.not_false, if_true] at hqp
      cases hqp

/-- Witness for the amended C8: a blank page is irrelevant, a page with a
high-priority keyword is relevant, and `filter_pages` keeps it. -/
theorem C8_amended_relevance_characterization_witness :
    is_relevant_page " " = false ∧
    is_relevant_page "CONVENIO 2024" = true ∧
    (is_relevant_page (OcrPage.mk 1 "CONVENIO 2024" true).text = true ∧
      (OcrPage.mk 1 "CONVENIO 2024" true).has_content = true) :=
  ⟨C8_amended_relevance_characterization.2.1 " " (by decide),
   (C8_amended_relevance_characterization.1 "CONVENIO 2024").mpr
     (Or.inr (Or.inr (by decide))),
   C8_amended_relevance_characterization.2.2.1
     [OcrPage.mk 1 "CONVENIO 2024" true] (OcrPage.mk 1 "CONVENIO 2024" true)
     (by decide)⟩

theorem movCreate_valor_validado (v : LabeledValue) (doc : String) (pg : Nat) :
    (_create_movimentacao_from_label v doc pg).valor_validado = true := by
  simp only [_create_movimentacao_from_label]
  split_ifs <;> rfl

theorem movCreate_entrada (v : LabeledValue) (doc : String) (pg : Nat) :
    (_create_movimentacao_from_label v doc pg).entrada =
      if v.campo ∈ CAMPOS_ENTRADA then v.valor_decimal else some 0 := by
  simp only [_create_movimentacao_from_label, CAMPOS_ENTRADA]
  split_ifs <;>
    first
      | rfl
      | (exfalso; (try casesm* _ ∨ _) <;> simp_all [List.mem_cons])

theorem movCreate_saida (v : LabeledValue) (doc : String) (pg : Nat) :
    (_create_movimentacao_from_label v doc pg).saida =
      if v.campo ∈ CAMPOS_SAIDA then v.valor_decimal else some 0 := by
  simp only [_create_movimentacao_from_label, CAMPOS_SAIDA]
  split_ifs <;>
    first
      | rfl
      | (exfalso; (try casesm* _ ∨ _) <;> simp_all [List.mem_cons])

theorem movCreate_aplicacao (v : LabeledValue) (doc : String) (pg : Nat) :
    (_create_movimentacao_from_label v doc pg).aplicacao =
      if v.campo = "aplicacao" then v.valor_decimal else none := by
  simp only [_create_movimentacao_from_label]
  split_ifs <;>
    first
      | rfl
      | (exfalso; (try casesm* _ ∨ _) <;> simp_all [List.mem_cons])

theorem movCreate_rendimentos (v : LabeledValue) (doc : String) (pg : Nat) :
    (_create_movimentacao_from_label v doc pg).rendimentos =
      if v.campo = "rendimento" ∨ v.campo = "rendimento_bruto" ∨
         v.campo = "rendimento_liquido" then v.valor_decimal else none := by
  simp only [_create_movimentacao_from_label]
  split_ifs <;>
    first
      | rfl
      | (exfalso; (try casesm* _ ∨ _) <;> simp_all [List.mem_cons])

theorem movCreate_tarifa_devolvida (v : LabeledValue) (doc : String) (pg : Nat) :
    (_create_movimentacao_from_label v doc pg).tarifa_devolvida =
      if v.campo = "tarifa_devolvida" then v.valor_decimal else none := by
  simp only [_create_movimentacao_from_label]
  split_ifs <;>
    first
      | rfl
      | (exfalso; (try casesm* _ ∨ _) <;> simp_all [List.mem_cons])

theorem movCreate_resgate (v : LabeledValue) (doc : String) (pg : Nat) :
    (_create_movimentacao_from_label v doc pg).resgate =
      if v.campo = "resgate" then v.valor_decimal else none := by
  simp only [_create_movimentacao_from_label]
  split_ifs <;>
    first
      | rfl
      | (exfalso; (try casesm* _ ∨ _) <;> simp_all [List.mem_cons])

theorem movCreate_tarifa_paga (v : LabeledValue) (doc : String) (pg : Nat) :
    (_create_movimentacao_from_label v doc pg).tarifa_paga =
      if v.campo = "tarifa_paga" then v.valor_decimal else none := by
  simp only [_create_movimentacao_from_label]
  split_ifs <;>
    first
      | rfl
      | (exfalso; (try casesm* _ ∨ _) <;> simp_all [List.mem_cons])

theorem sum_map_ite {α : Type} (p : α → Prop) [DecidablePred p] (f : α → ℚ)
    (l : List α) :
    (l.map (fun a => if p a then f a else 0)).sum =
      ((l.filter (fun a => decide (p a))).map f).sum := by
  induction l with
  | nil => rfl
  | cons a l ih =>
    by_cases h : p a <;> simp [h, ih]

/-- C10: application, yield, and returned-fee values are mirrored into the
`entrada` slot (redemption and paid-fee values into `saida`) by
`_create_movimentacao_from_label`, and consequently the aggregate
`total_entrada` (resp. `total_saida`) computed by `_calculate_safe_totals`
over created movements is the sum over all values whose canonical field lies
in `CAMPOS_ENTRADA` (resp. `CAMPOS_SAIDA`), i.e. it includes
application/yield/fee amounts beyond plain entries and exits. -/
theorem C10_entrada_saida_slots_and_totals :
    (∀ (v : LabeledValue) (doc : String) (pg : Nat),
      (v.campo = "aplicacao" →
        (_create_movimentacao_from_label v doc pg).entrada = v.valor_decimal ∧
        (_create_movimentacao_from_label v doc pg).aplicacao = v.valor_decimal) ∧
      ((v.campo = "rendimento" ∨ v.campo = "rendimento_bruto" ∨
          v.campo = "rendimento_liquido") →
        (_create_movimentacao_from_label v doc pg).entrada = v.valor_decimal ∧
        (_create_movimentacao_from_label v doc pg).rendimentos = v.valor_decimal) ∧
      (v.campo = "tarifa_devolvida" →
        (_create_movimentacao_from_label v doc pg).entrada = v.valor_decimal ∧
        (_create_movimentacao_from_label v doc pg).tarifa_devolvida = v.valor_decimal) ∧
      (v.campo = "resgate" →
        (_create_movimentacao_from_label v doc pg).saida = v.valor_decimal ∧
        (_create_movimentacao_from_label v doc pg).resgate = v.valor_decimal) ∧
      (v.campo = "tarifa_paga" →
        (_create_movimentacao_from_label v doc pg).saida = v.valor_decimal ∧
        (_create_movimentacao_from_label v doc pg).tarifa_paga = v.valor_decimal)) ∧
    (∀ (vs : List LabeledValue) (doc : String) (pg : Nat),
      (rawSafeTotals (vs.map
          (fun v => _create_movimentacao_from_label v doc pg))).total_entrada =
        ((vs.filter (fun v => v.campo ∈ CAMPOS_ENTRADA)).map
          (fun v => v.valor_decimal.getD 0)).sum ∧
      (rawSafeTotals (vs.map
          (fun v => _create_movimentacao_from_label v doc pg))).total_saida =
        ((vs.filter (fun v => v.campo ∈ CAMPOS_SAIDA)).map
          (fun v => v.valor_decimal.getD 0)).sum) := by
  constructor
  · intro v doc pg
    refine ⟨fun h => ?_, fun h => ?_, fun h => ?_, fun h => ?_, fun h => ?_⟩
    · rw [movCreate_entrada, movCreate_aplicacao, if_pos h,
        if_pos (by simp [CAMPOS_ENTRADA, h])]
      exact ⟨rfl, rfl⟩
    · rw [movCreate_entrada, movCreate_rendimentos, if_pos h,
        if_pos (by rcases h with h | h | h <;> simp [CAMPOS_ENTRADA, h])]
      exact ⟨rfl, rfl⟩
    · rw [movCreate_entrada, movCreate_tarifa_devolvida, if_pos h,
        if_pos (by simp [CAMPOS_ENTRADA, h])]
      exact ⟨rfl, rfl⟩
    · rw [movCreate_saida, movCreate_resgate, if_pos h,
        if_pos (by simp [CAMPOS_SAIDA, h])]
      exact ⟨rfl, rfl⟩
    · rw [movCreate_saida, movCreate_tarifa_paga, if_pos h,
        if_pos (by simp [CAMPOS_SAIDA, h])]
      exact ⟨rfl, rfl⟩
  · intro vs doc pg
    have hkeep : (vs.map (fun v => _create_movimentacao_from_label v doc pg)).filter
        (fun m => m.valor_validado) =
        vs.map (fun v => _create_movimentacao_from_label v doc pg) := by
      rw [List.filter_eq_self]
      intro m hm
      rcases List.mem_map.mp hm with ⟨v, _, rfl⟩
      exact movCreate_valor_validado v doc pg
    constructor
    · simp only [rawSafeTotals, hkeep, List.map_map, Function.comp_def]
      have hcongr : (vs.map
          (fun v => (_create_movimentacao_from_label v doc pg).entrada.getD 0)) =
          vs.map (fun v => if v.campo ∈ CAMPOS_ENTRADA then v.valor_decimal.getD 0 else 0) := by
        refine List.map_congr_left ?_
        intro v _
        rw [movCreate_entrada]
        by_cases h : v.campo ∈ CAMPOS_ENTRADA <;> simp [h]
      rw [hcongr, sum_map_ite (fun v => v.campo ∈ CAMPOS_ENTRADA)
        (fun v => v.valor_decimal.getD 0) vs]
    · simp only [rawSafeTotals, hkeep, List.map_map, Function.comp_def]
      have hcongr : (vs.map
          (fun v => (_create_movimentacao_from_label v doc pg).saida.getD 0)) =
          vs.map (fun v => if v.campo ∈ CAMPOS_SAIDA then v.valor_decimal.getD 0 else 0) := by
        refine List.map_congr_left ?_
        intro v _
        rw [movCreate_saida]
        by_cases h : v.campo ∈ CAMPOS_SAIDA <;> simp [h]
      rw [hcongr, sum_map_ite (fun v => v.campo ∈ CAMPOS_SAIDA)
        (fun v => v.valor_decimal.getD 0) vs]

/-- Witness for C10 at a concrete application value and movement list. -/
theorem C10_entrada_saida_slots_and_totals_witness :
    ((_create_movimentacao_from_label
        { rotulo := "APLICAÇÃO", campo := "aplicacao", valor_texto := "100,00",
          valor_decimal := some 100, pagina := 1,
          linha_original := "APLICAÇÃO 100,00", status_validacao := "OK",
          motivo := none, posicao_match := some 0 } "doc" 1).entrada = some 100 ∧
      (_create_movimentacao_from_label
        { rotulo := "APLICAÇÃO", campo := "aplicacao", valor_texto := "100,00",
          valor_decimal := some 100, pagina := 1,
          linha_original := "APLICAÇÃO 100,00", status_validacao := "OK",
          motivo := none, posicao_match := some 0 } "doc" 1).aplicacao = some 100) :=
  (C10_entrada_saida_slots_and_totals.1
    { rotulo := "APLICAÇÃO", campo := "aplicacao", valor_texto := "100,00",
      valor_decimal := some 100, pagina := 1,
      linha_original := "APLICAÇÃO 100,00", status_validacao := "OK",
      motivo := none, posicao_match := some 0 } "doc" 1).1 rfl

/-- C9 (code evaluation): `run_ocr_in_background` applies the worker result
to the job table but performs no file deletion — after the job completes
DONE its uploaded file is still stored, and in general the upload set is
untouched for every job id, result, and state; only the legacy `main.py`
background task (`legacy_cleanup_file`) removes the file. -/
theorem C9_upload_file_never_deleted :
    ((run_ocr_in_background "j1" sampleResult 5 c9State).upload_files =
      ["storage/uploads/j1.pdf"]) ∧
    ((lookupJ (run_ocr_in_background "j1" sampleResult 5 c9State).jm.jobs "j1").map
      JobMetadata.status = some JobStatus.done) ∧
    (∀ (jid : String) (r : JobResultR) (t : Nat) (s : SysState),
      (run_ocr_in_background jid r t s).upload_files = s.upload_files) ∧
    (legacy_cleanup_file "storage/uploads/j1.pdf" ["storage/uploads/j1.pdf"] = []) := by
  refine ⟨by decide, by decide, ?_, by decide⟩
  intro jid r t s
  simp only [run_ocr_in_background]
  by_cases h : r.status = JobStatus.done
  · rw [if_pos h]
    cases complete_job s.jm jid r t <;> rfl
  · rw [if_neg h]

/-! ## C4: Brazilian-locale parsing scenarios -/

/-- C4: on any page, the line `"SALDO ANTERIOR 168.376,96"` yields exactly
one OK value for field `saldo_anterior` with decimal 168376.96 (period as
thousands separator, comma as decimal separator); the line
`"SALDO ANTERIOR 3.254.269.459,98"` yields exactly one SUSPECT value (beyond
the ±1,000,000,000 bound) with a reason, and that field's total is then
blocked with a reason. -/
theorem C4_brazilian_locale_scenarios :
    (∀ p : Nat, extract_from_line "SALDO ANTERIOR 168.376,96" p =
      [{ rotulo := "SALDO ANTERIOR", campo := "saldo_anterior",
         valor_texto := "168.376,96", valor_decimal := some (mkRat 16837696 100),
         pagina := p, linha_original := "SALDO ANTERIOR 168.376,96",
         status_validacao := "OK", motivo := none, posicao_match := some 0 }]) ∧
    (∀ p : Nat, extract_from_line "SALDO ANTERIOR 3.254.269.459,98" p =
      [{ rotulo := "SALDO ANTERIOR", campo := "saldo_anterior",
         valor_texto := "3.254.269.459,98", valor_decimal := none,
         pagina := p, linha_original := "SALDO ANTERIOR 3.254.269.459,98",
         status_validacao := "SUSPEITO",
         motivo := some "Valor fora dos limites razoáveis: 3.254.269.459,98",
         posicao_match := none }]) ∧
    (calculate_totals_safe (extract_from_text "SALDO ANTERIOR 3.254.269.459,98" 1) =
      { totais := [("saldo_anterior", TotalOutcome.blockedSuspect 1)],
        campos_com_erro := ["saldo_anterior"],
        tem_valores_suspeitos := true }) := by
  refine ⟨fun p => ?_, fun p => ?_, by rfl⟩
  · rfl
  · rfl

/-! ## C5: batch splitting -/

theorem pyRange_stop (start stop step : Nat) (h : ¬ start < stop)
    (hstep : step ≠ 0) : pyRange start stop step = [] := by
  rw [pyRange]
  simp [hstep, h]

theorem pyRange_step (start stop step : Nat) (h : start < stop)
    (hstep : step ≠ 0) :
    pyRange start stop step = start :: pyRange (start + step) stop step := by
  rw [pyRange]
  simp [hstep, h]

/-- Generalized batch specification from an arbitrary first page `k ≥ 1`:
the expanded batches cover `k..N` in order, there are `ceil((N+1-k)/b)` of
them, and each is a nonempty range of at most `b` pages ending by `N`. -/
theorem calculate_batches_from (N b : Nat) (hb : 0 < b) :
    ∀ (m k : Nat), N + 1 - k = m → 1 ≤ k →
      ((((pyRange k (N + 1) b).map (fun s => (s, min (s + b - 1) N))).flatMap
          (fun be => List.range' be.1 (be.2 + 1 - be.1))) =
        List.range' k (N + 1 - k)) ∧
      ((pyRange k (N + 1) b).length = (N + 1 - k + (b - 1)) / b) ∧
      (∀ be ∈ (pyRange k (N + 1) b).map (fun s => (s, min (s + b - 1) N)),
        k ≤ be.1 ∧ be.1 ≤ be.2 ∧ be.2 + 1 - be.1 ≤ b ∧ be.2 ≤ N) := by
  intro m
  induction m using Nat.strong_induction_on with
  | _ m ih =>
    intro k hm hk
    by_cases hlt : k < N + 1
    · rw [pyRange_step _ _ _ hlt hb.ne']
      have hrec := ih (N + 1 - (k + b)) (by omega) (k + b) rfl (by omega)
      have hlen : (N + 1 - k + (b - 1)) / b = (N + 1 - (k + b) + (b - 1)) / b + 1 := by
        rcases le_or_lt b (N + 1 - k) with hbM | hbM
        · have h1 : N + 1 - k + (b - 1) = (N + 1 - (k + b) + (b - 1)) + b := by omega
          rw [h1, Nat.add_div_right _ hb]
        · have h1 : N + 1 - (k + b) = 0 := by omega
          have h2 : N + 1 - k + (b - 1) = (N + 1 - k - 1) + b := by omega
          rw [h1, h2, Nat.add_div_right _ hb, Nat.zero_add]
          rw [Nat.div_eq_of_lt (by omega : N + 1 - k - 1 < b)]
          rw [Nat.div_eq_of_lt (by omega : b - 1 < b)]
      refine ⟨?_, ?_, ?_⟩
      · simp only [List.map_cons, List.flatMap_cons]
        rw [hrec.1]
        have hmin1 : min (k + b - 1) N + 1 - k = min b (N + 1 - k) := by omega
        rw [hmin1]
        rcases le_or_lt b (N + 1 - k) with hbM | hbM
        · have h1 : min b (N + 1 - k) = b := by omega
          rw [h1]
          have h2 : N + 1 - (k + b) = (N + 1 - k) - b := by omega
          rw [h2]
          have h3 := List.range'_append k b ((N + 1 - k) - b) 1
          simp only [Nat.one_mul, Nat.mul_one] at h3
          rw [h3]
          congr 1
          omega
        · have h1 : min b (N + 1 - k) = N + 1 - k := by omega
          have h2 : N + 1 - (k + b) = 0 := by omega
          rw [h1, h2]
          simp
      · simp only [List.length_cons, hrec.2.1, hlen]
      · intro be hbe
        simp only [List.map_cons, List.mem_cons] at hbe
        rcases hbe with rfl | hbe
        · refine ⟨le_refl _, by omega, by omega, by omega⟩
        · have h6 := hrec.2.2 be hbe
          exact ⟨by omega, h6.2.1, h6.2.2.1, h6.2.2.2⟩
    · rw [pyRange_stop _ _ _ hlt hb.ne']
      refine ⟨by simp; omega, by simp; rw [Nat.div_eq_of_lt (by omega)], by simp⟩

theorem calculate_batches_pairwise (N b : Nat) (hb : 0 < b) :
    ∀ (m k : Nat), N + 1 - k = m → 1 ≤ k →
      ((pyRange k (N + 1) b).map (fun s => (s, min (s + b - 1) N))).Pairwise
        (fun x y => x.2 < y.1) := by
  intro m
  induction m using Nat.strong_induction_on with
  | _ m ih =>
    intro k hm hk
    by_cases hlt : k < N + 1
    · rw [pyRange_step _ _ _ hlt hb.ne']
      simp only [List.map_cons]
      refine List.Pairwise.cons ?_ (ih (N + 1 - (k + b)) (by omega) (k + b) rfl (by omega))
      intro y hy
      have h6 := (calculate_batches_from N b hb (N + 1 - (k + b)) (k + b) rfl
        (by omega)).2.2 y hy
      simp only []
      omega
    · rw [pyRange_stop _ _ _ hlt hb.ne']
      simp

/-- C5: for every page count `N ≥ 0` and batch size `b > 0`,
`calculate_batches` returns exactly `ceil(N/b)` ranges; expanded in order
they cover `1..N` exactly once; each range is nonempty, of size at most `b`,
ends by `N`; and the ranges are strictly ordered and non-overlapping. -/
theorem C5_calculate_batches_partition (N b : Nat) (hb : 0 < b) :
    (calculate_batches N b).length = (N + b - 1) / b ∧
    ((calculate_batches N b).flatMap
      (fun be => List.range' be.1 (be.2 + 1 - be.1)) = List.range' 1 N) ∧
    (∀ be ∈ calculate_batches N b,
      1 ≤ be.1 ∧ be.1 ≤ be.2 ∧ be.2 + 1 - be.1 ≤ b ∧ be.2 ≤ N) ∧
    (calculate_batches N b).Pairwise (fun x y => x.2 < y.1) := by
  have h := calculate_batches_from N b hb (N + 1 - 1) 1 rfl (le_refl 1)
  have hp := calculate_batches_pairwise N b hb (N + 1 - 1) 1 rfl (le_refl 1)
  have hN : N + 1 - 1 = N := by omega
  refine ⟨?_, ?_, ?_, ?_⟩
  · show ((pyRange 1 (N + 1) b).map (fun s => (s, min (s + b - 1) N))).length = _
    rw [List.length_map, h.2.1]
    congr 1
    omega
  · show (((pyRange 1 (N + 1) b).map (fun s => (s, min (s + b - 1) N))).flatMap
      (fun be => List.range' be.1 (be.2 + 1 - be.1))) = _
    rw [h.1, hN]
  · intro be hbe
    exact h.2.2 be hbe
  · exact hp

/-- Witness for C5 at the docstring example `calculate_batches(25, 10)`. -/
theorem C5_calculate_batches_partition_witness :
    (calculate_batches 25 10).length = (25 + 10 - 1) / 10 ∧
    ((calculate_batches 25 10).flatMap
      (fun be => List.range' be.1 (be.2 + 1 - be.1)) = List.range' 1 25) ∧
    (∀ be ∈ calculate_batches 25 10,
      1 ≤ be.1 ∧ be.1 ≤ be.2 ∧ be.2 + 1 - be.1 ≤ 10 ∧ be.2 ≤ 25) ∧
    (calculate_batches 25 10).Pairwise (fun x y => x.2 < y.1) :=
  C5_calculate_batches_partition 25 10 (by decide)

theorem lastOr_none (pre : List Char) : lastOr pre none = pre.getLast? := by
  unfold lastOr
  rw [← List.head?_reverse]
  cases pre.reverse.head? <;> rfl

theorem lastOr_cons (c : Char) (pre : List Char) (prev : Option Char) :
    lastOr (c :: pre) prev = lastOr pre (some c) := by
  unfold lastOr
  cases hrev : pre.reverse with
  | nil => simp [List.reverse_cons, hrev]
  | cons x t => simp [List.reverse_cons, hrev]

theorem lastOr_append (a num pre2 : List Char) (prev : Option Char)
    (hnum : num ≠ []) :
    lastOr (a ++ (num ++ pre2)) prev = lastOr pre2 num.getLast? := by
  unfold lastOr
  cases hrev : pre2.reverse with
  | nil =>
    have hp : pre2 = [] := by simpa using congrArg List.reverse hrev
    subst hp
    cases hnr : num.reverse with
    | nil => exact absurd (by simpa using congrArg List.reverse hnr) hnum
    | cons x t =>
      rw [← List.head?_reverse]
      simp [List.reverse_append, hnr]
  | cons x t =>
    simp [List.reverse_append, hrev]

theorem stripCI_sound (lab : List Char) : ∀ (s m r : List Char),
    stripCI lab s = some (m, r) →
    s = m ++ r ∧ m.map upperChar = lab.map upperChar := by
  induction lab with
  | nil =>
    intro s m r h
    simp only [stripCI, Option.some.injEq, Prod.mk.injEq] at h
    rw [← h.1, ← h.2]
    exact ⟨rfl, rfl⟩
  | cons a as ih =>
    intro s m r h
    cases s with
    | nil => cases h
    | cons c cs =>
      simp only [stripCI] at h
      by_cases hc : upperChar c = upperChar a
      · rw [if_pos hc] at h
        cases hstrip : stripCI as cs with
        | none => rw [hstrip] at h; cases h
        | some mr =>
          rw [hstrip] at h
          simp only [Option.some.injEq, Prod.mk.injEq] at h
          have h2 := ih cs mr.1 mr.2 (by rw [hstrip])
          rw [← h.1, ← h.2]
          constructor
          · rw [List.cons_append, ← h2.1]
          · simp only [List.map_cons, hc, h2.2]
      · rw [if_neg hc] at h
        cases h

theorem takeSep_sound (s sep r : List Char)
    (h : takeSep s = (sep, r)) :
    s = sep ++ r ∧ (sep = [] ∨ sep = [':'] ∨ sep = ['-']) := by
  cases s with
  | nil =>
    simp only [takeSep, Prod.mk.injEq] at h
    rw [← h.1, ← h.2]
    exact ⟨rfl, Or.inl rfl⟩
  | cons c cs =>
    simp only [takeSep] at h
    by_cases hc : c = ':' ∨ c = '-'
    · rw [if_pos hc] at h
      simp only [Prod.mk.injEq] at h
      rw [← h.1, ← h.2]
      refine ⟨rfl, ?_⟩
      rcases hc with rfl | rfl
      · exact Or.inr (Or.inl rfl)
      · exact Or.inr (Or.inr rfl)
    · rw [if_neg hc] at h
      simp only [Prod.mk.injEq] at h
      rw [← h.1, ← h.2]
      exact ⟨rfl, Or.inl rfl⟩

theorem dotGroups_sound (fuel : Nat) : ∀ (s : List Char),
    (dotGroups fuel s).1 ++ (dotGroups fuel s).2 = s ∧
    ∀ c ∈ (dotGroups fuel s).1, isDigitChar c = true ∨ c = '.' := by
  induction fuel with
  | zero => intro s; exact ⟨rfl, by intro c hc; cases hc⟩
  | succ fuel ih =>
    intro s
    cases s with
    | nil => exact ⟨rfl, by intro c hc; cases hc⟩
    | cons c rest =>
      simp only [dotGroups]
      by_cases hc : c = '.'
      · rw [if_pos hc]
        cases hspan : spanP isDigitChar rest with
        | mk d r =>
          cases d with
          | nil => exact ⟨rfl, by intro x hx; cases hx⟩
          | cons d0 ds =>
            have happ2 : d0 :: (ds ++ r) = rest := by
              have happ := spanP_append isDigitChar rest
              rw [hspan] at happ
              simpa using happ
            have hdig2 : ∀ x ∈ d0 :: ds, isDigitChar x = true := by
              have hdig := spanP_fst_mem isDigitChar rest
              rw [hspan] at hdig
              simpa using hdig
            have hrec := ih r
            constructor
            · simp only [List.cons_append, List.append_assoc]
              rw [hrec.1, hc, happ2]
            · intro x hx
              simp only [List.mem_cons, List.mem_append] at hx
              rcases hx with rfl | rfl | hx | hx
              · right; rfl
              · left; exact hdig2 x (List.mem_cons_self _ _)
              · left; exact hdig2 x (List.mem_cons_of_mem _ hx)
              · exact hrec.2 x hx
      · rw [if_neg hc]
        exact ⟨rfl, by intro x hx; cases hx⟩

theorem commaGroup_sound (s : List Char) :
    (commaGroup s).1 ++ (commaGroup s).2 = s ∧
    ∀ c ∈ (commaGroup s).1, isDigitChar c = true ∨ c = ',' := by
  cases s with
  | nil => exact ⟨rfl, by intro c hc; cases hc⟩
  | cons c rest =>
    simp only [commaGroup]
    by_cases hc : c = ','
    · rw [if_pos hc]
      cases hspan : spanP isDigitChar rest with
      | mk d r =>
        cases d with
        | nil => exact ⟨rfl, by intro x hx; cases hx⟩
        | cons d0 ds =>
          have happ2 : d0 :: (ds ++ r) = rest := by
            have happ := spanP_append isDigitChar rest
            rw [hspan] at happ
            simpa using happ
          have hdig2 : ∀ x ∈ d0 :: ds, isDigitChar x = true := by
            have hdig := spanP_fst_mem isDigitChar rest
            rw [hspan] at hdig
            simpa using hdig
          constructor
          · simp only [List.cons_append]
            rw [happ2]
          · intro x hx
            simp only [List.mem_cons] at hx
            rcases hx with rfl | rfl | hx
            · right; exact hc
            · left; exact hdig2 x (List.mem_cons_self _ _)
            · left; exact hdig2 x (List.mem_cons_of_mem _ hx)
    · rw [if_neg hc]
      exact ⟨rfl, by intro x hx; cases hx⟩

theorem matchNumeral_sound (s num rest : List Char)
    (h : matchNumeral s = some (num, rest)) :
    s = num ++ rest ∧ NumShape num := by
  unfold matchNumeral at h
  cases hspan : spanP isDigitChar s with
  | mk d r =>
    rw [hspan] at h
    cases d with
    | nil => cases h
    | cons d0 ds =>
      simp only [Option.some.injEq, Prod.mk.injEq] at h
      have happ2 : d0 :: (ds ++ r) = s := by
        have happ := spanP_append isDigitChar s
        rw [hspan] at happ
        simpa using happ
      have hdig2 : ∀ x ∈ d0 :: ds, isDigitChar x = true := by
        have hdig := spanP_fst_mem isDigitChar s
        rw [hspan] at hdig
        simpa using hdig
      have hdg := dotGroups_sound r.length r
      have hcg := commaGroup_sound (dotGroups r.length r).2
      constructor
      · rw [← h.1, ← h.2]
        simp only [List.cons_append, List.append_assoc]
        rw [hcg.1, hdg.1, ← List.cons_append]
        simp only [List.cons_append]
        rw [happ2]
      · rw [← h.1]
        refine ⟨by simp, ⟨d0, by simp, hdig2 d0 (List.mem_cons_self _ _)⟩, ?_⟩
        intro c hc
        simp only [List.mem_append, List.mem_cons] at hc
        rcases hc with ((rfl | hc) | hc) | hc
        · left; exact hdig2 c (List.mem_cons_self _ _)
        · left; exact hdig2 c (List.mem_cons_of_mem _ hc)
        · rcases hdg.2 c hc with h1 | rfl
          · left; exact h1
          · right; left; rfl
        · rcases hcg.2 c hc with h1 | rfl
          · left; exact h1
          · right; right; rfl

theorem tryMatchAt_sound (lab : List Char) (prev : Option Char) (s : List Char)
    (labm gap num rest : List Char)
    (h : tryMatchAt lab prev s = some (labm, gap, num, rest)) :
    s = labm ++ (gap ++ (num ++ rest)) ∧
    labm.map upperChar = lab.map upperChar ∧
    (∀ c, prev = some c → isWordChar c = false) ∧
    (∀ c, (gap ++ (num ++ rest)).head? = some c → isWordChar c = false) ∧
    GapShape gap ∧ NumShape num := by
  unfold tryMatchAt at h
  by_cases hw : isWordOpt prev = true
  · rw [if_pos hw] at h
    cases h
  · rw [if_neg hw] at h
    cases hstrip : stripCI lab s with
    | none => rw [hstrip] at h; cases h
    | some mr =>
      rcases mr with ⟨labm0, r1⟩
      rw [hstrip] at h
      dsimp only at h
      by_cases hw2 : isWordOpt r1.head? = true
      · rw [if_pos hw2] at h
        cases h
      · rw [if_neg hw2] at h
        cases hnum : matchNumeral (spanP isSpaceChar
            (takeSep (spanP isSpaceChar r1).2).2).2 with
        | none => rw [hnum] at h; cases h
        | some nr =>
          rcases nr with ⟨num0, rest0⟩
          rw [hnum] at h
          simp only [Option.some.injEq, Prod.mk.injEq] at h
          obtain ⟨hlabm, hgap, hnum0, hrest0⟩ := h
          have hstr := stripCI_sound lab s labm0 r1 hstrip

          have hA := spanP_append isSpaceChar r1
          have hAmem := spanP_fst_mem isSpaceChar r1
          have hB := takeSep_sound (spanP isSpaceChar r1).2
            (takeSep (spanP isSpaceChar r1).2).1
            (takeSep (spanP isSpaceChar r1).2).2 rfl
          have hC := spanP_append isSpaceChar
            (takeSep (spanP isSpaceChar r1).2).2
          have hCmem := spanP_fst_mem isSpaceChar
            (takeSep (spanP isSpaceChar r1).2).2
          have hN := matchNumeral_sound _ num0 rest0 hnum
          have hr1 : r1 = (spanP isSpaceChar r1).1 ++
              ((takeSep (spanP isSpaceChar r1).2).1 ++
               ((spanP isSpaceChar
                  (takeSep (spanP isSpaceChar r1).2).2).1 ++
                (num0 ++ rest0))) := by
            rw [← hN.1, hC, ← hB.1, hA]
          have hgap2 : gap = (spanP isSpaceChar r1).1 ++
              (takeSep (spanP isSpaceChar r1).2).1 ++
              (spanP isSpaceChar
                (takeSep (spanP isSpaceChar r1).2).2).1 := hgap.symm
          have hr1b : r1 = gap ++ (num ++ rest) := by
            rw [hgap2, ← hnum0, ← hrest0]
            simp only [List.append_assoc]
            exact hr1
          refine ⟨?_, ?_, ?_, ?_, ?_, ?_⟩
          · rw [← hlabm, ← hr1b]
            exact hstr.1
          · rw [← hlabm]
            exact hstr.2
          · intro c hc
            rw [hc] at hw
            simpa [isWordOpt] using hw
          · intro c hc
            rw [← hr1b] at hc
            rw [hc] at hw2
            simpa [isWordOpt] using hw2
          · refine ⟨(spanP isSpaceChar r1).1,
              (takeSep (spanP isSpaceChar r1).2).1,
              (spanP isSpaceChar
                (takeSep (spanP isSpaceChar r1).2).2).1,
              ?_, hAmem, hCmem, hB.2⟩
            rw [hgap2]
          · rw [← hnum0]
            exact hN.2

theorem scanFrom_sound (lab : List Char) : ∀ (fuel : Nat) (prev : Option Char)
    (i : Nat) (s : List Char) (j : Nat) (num : List Char),
    (j, num) ∈ scanFrom fuel lab prev i s →
    ∃ pre labm gap rest,
      s = pre ++ (labm ++ (gap ++ (num ++ rest))) ∧
      j = i + pre.length ∧
      labm.map upperChar = lab.map upperChar ∧
      (∀ c, lastOr pre prev = some c → isWordChar c = false) ∧
      (∀ c, (gap ++ (num ++ rest)).head? = some c → isWordChar c = false) ∧
      GapShape gap ∧ NumShape num := by
  intro fuel
  induction fuel with
  | zero => intro prev i s j num h; cases h
  | succ fuel ih =>
    intro prev i s j num h
    simp only [scanFrom] at h
    cases htry : tryMatchAt lab prev s with
    | some q =>
      rcases q with ⟨labm0, gap0, num0, rest0⟩
      rw [htry] at h
      have hts := tryMatchAt_sound lab prev s labm0 gap0 num0 rest0 htry
      rcases List.mem_cons.mp h with heq | htail
      · injection heq with hj hnum
        refine ⟨[], labm0, gap0, rest0, ?_, by simpa using hj, hts.2.1, ?_, ?_, hts.2.2.2.2.1, ?_⟩
        · rw [hnum]
          simpa using hts.1
        · intro c hc
          unfold lastOr at hc
          simp only [List.reverse_nil, List.head?_nil] at hc
          exact hts.2.2.1 c hc
        · rw [hnum]
          exact hts.2.2.2.1
        · rw [hnum]
          exact hts.2.2.2.2.2
      · rcases ih num0.getLast? (i + labm0.length + gap0.length + num0.length)
          rest0 j num htail with ⟨pre2, labm2, gap2, rest2, he, hj, hci, hb1, hb2, hgs, hns⟩
        refine ⟨labm0 ++ gap0 ++ num0 ++ pre2, labm2, gap2, rest2, ?_, ?_, hci, ?_, hb2, hgs, hns⟩
        · rw [hts.1, he]
          simp [List.append_assoc]
        · rw [hj]
          simp [List.length_append]
          omega
        · intro c hc
          apply hb1 c
          rw [← hc]
          have hnum0ne : num0 ≠ [] := hts.2.2.2.2.2.1
          have := lastOr_append (labm0 ++ gap0) num0 pre2 prev hnum0ne
          simp only [List.append_assoc] at this ⊢
          exact this.symm
    | none =>
      rw [htry] at h
      cases s with
      | nil => cases h
      | cons c0 cs =>
        rcases ih (some c0) (i + 1) cs j num h with
          ⟨pre2, labm2, gap2, rest2, he, hj, hci, hb1, hb2, hgs, hns⟩
        refine ⟨c0 :: pre2, labm2, gap2, rest2, ?_, ?_, hci, ?_, hb2, hgs, hns⟩
        · rw [he]
          rfl
        · rw [hj]
          simp only [List.length_cons]
          omega
        · intro c hc
          apply hb1 c
          rw [← hc, lastOr_cons]

theorem mkLabeledValue_fields (rot campo : String) (pos : Nat)
    (num linha : List Char) (page : Nat) :
    (mkLabeledValue rot campo pos num linha page).rotulo = rot ∧
    (mkLabeledValue rot campo pos num linha page).campo = campo ∧
    (mkLabeledValue rot campo pos num linha page).valor_texto = String.mk num := by
  unfold mkLabeledValue
  cases parse_brazilian_number num <;> exact ⟨rfl, rfl, rfl⟩

theorem addToGroup_sound (P : LabeledValue → Prop) (v : LabeledValue) (hv : P v) :
    ∀ (acc : List (String × List LabeledValue)),
      (∀ cl ∈ acc, ∀ w ∈ cl.2, w.campo = cl.1 ∧ P w) →
      ∀ cl ∈ addToGroup acc v, ∀ w ∈ cl.2, w.campo = cl.1 ∧ P w := by
  intro acc
  induction acc with
  | nil =>
    intro _ cl hcl w hw
    simp only [addToGroup, List.mem_singleton] at hcl
    subst hcl
    simp only [List.mem_singleton] at hw
    subst hw
    exact ⟨rfl, hv⟩
  | cons kv rest ih =>
    intro hacc cl hcl w hw
    rcases kv with ⟨k, vs0⟩
    simp only [addToGroup] at hcl
    by_cases hk : k = v.campo
    · rw [if_pos hk] at hcl
      rcases List.mem_cons.mp hcl with rfl | hcl2
      · rcases List.mem_append.mp hw with hw1 | hw2
        · exact hacc (k, vs0) (List.mem_cons_self _ _) w hw1
        · simp only [List.mem_singleton] at hw2
          subst hw2
          exact ⟨hk.symm, hv⟩
      · exact hacc cl (List.mem_cons_of_mem _ hcl2) w hw
    · rw [if_neg hk] at hcl
      rcases List.mem_cons.mp hcl with rfl | hcl2
      · exact hacc (k, vs0) (List.mem_cons_self _ _) w hw
      · refine ih ?_ cl hcl2 w hw
        intro cl2 hcl2b w2 hw2
        exact hacc cl2 (List.mem_cons_of_mem _ hcl2b) w2 hw2

theorem foldl_group_sound (P : LabeledValue → Prop) :
    ∀ (l : List LabeledValue) (acc : List (String × List LabeledValue)),
      (∀ v ∈ l, P v) →
      (∀ cl ∈ acc, ∀ w ∈ cl.2, w.campo = cl.1 ∧ P w) →
      ∀ cl ∈ l.foldl addToGroup acc, ∀ w ∈ cl.2, w.campo = cl.1 ∧ P w := by
  intro l
  induction l with
  | nil =>
    intro acc _ hacc
    exact hacc
  | cons v rest ih =>
    intro acc hl hacc
    simp only [List.foldl_cons]
    exact ih _ (fun w hw => hl w (List.mem_cons_of_mem _ hw))
      (addToGroup_sound P v (hl v (List.mem_cons_self _ _)) acc hacc)

/-- C1: every record produced by the extractor is anchored to a vocabulary
label.  (a) Each record of `extract_from_line` carries a `(rotulo, campo)`
pair of the closed vocabulary, and the line decomposes as
`pre ++ label ++ gap ++ numeral ++ rest` where the label occurrence matches
the vocabulary entry case-insensitively at word boundaries, the gap is only
whitespace with an optional `:`/`-`, and the captured text is a numeral —
so no `LabeledValue` arises from a number not immediately preceded by a
vocabulary label.  (b) Each record of `extract_from_text` lives in the
bucket of its own canonical field and comes from `extract_from_line` on one
of the text's lines. -/
theorem C1_values_only_from_labeled_numerals :
    (∀ (linha : List Char) (page : Nat) (rec : LabeledValue),
      rec ∈ extract_from_line_chars linha page →
      (rec.rotulo, rec.campo) ∈ ROTULOS_VALIDOS ∧
      ∃ pre labm gap rest,
        linha = pre ++ (labm ++ (gap ++ (rec.valor_texto.data ++ rest))) ∧
        labm.map upperChar = rec.rotulo.data.map upperChar ∧
        (∀ c, pre.getLast? = some c → isWordChar c = false) ∧
        (∀ c, (gap ++ (rec.valor_texto.data ++ rest)).head? = some c →
          isWordChar c = false) ∧
        GapShape gap ∧ NumShape rec.valor_texto.data) ∧
    (∀ (texto : List Char) (page : Nat) (campo : String)
        (vs : List LabeledValue) (rec : LabeledValue),
      (campo, vs) ∈ extract_from_text_chars texto page → rec ∈ vs →
      rec.campo = campo ∧
      ∃ linha ∈ splitNl texto, rec ∈ extract_from_line_chars linha page) := by
  have hline : ∀ (linha : List Char) (page : Nat) (rec : LabeledValue),
      rec ∈ extract_from_line_chars linha page →
      (rec.rotulo, rec.campo) ∈ ROTULOS_VALIDOS ∧
      ∃ pre labm gap rest,
        linha = pre ++ (labm ++ (gap ++ (rec.valor_texto.data ++ rest))) ∧
        labm.map upperChar = rec.rotulo.data.map upperChar ∧
        (∀ c, pre.getLast? = some c → isWordChar c = false) ∧
        (∀ c, (gap ++ (rec.valor_texto.data ++ rest)).head? = some c →
          isWordChar c = false) ∧
        GapShape gap ∧ NumShape rec.valor_texto.data := by
    intro linha page rec hrec
    unfold extract_from_line_chars at hrec
    rcases List.mem_flatMap.mp hrec with ⟨rc, hrcmem, hrec2⟩
    rcases List.mem_map.mp hrec2 with ⟨jm, hscan, hmk⟩
    rcases jm with ⟨j, num⟩
    have hflds := mkLabeledValue_fields rc.1 rc.2 j num linha page
    have hrot : rec.rotulo = rc.1 := by rw [← hmk]; exact hflds.1
    have hcampo : rec.campo = rc.2 := by rw [← hmk]; exact hflds.2.1
    have htexto : rec.valor_texto.data = num := by
      rw [← hmk, hflds.2.2]
    constructor
    · rw [hrot, hcampo, Prod.mk.eta]
      exact hrcmem
    · rcases scanFrom_sound rc.1.data (linha.length + 1) none 0 linha j num hscan
        with ⟨pre, labm, gap, rest, he, hj, hci, hb1, hb2, hgs, hns⟩
      refine ⟨pre, labm, gap, rest, ?_, ?_, ?_, ?_, hgs, ?_⟩
      · rw [htexto]
        exact he
      · rw [hrot]
        exact hci
      · intro c hc
        apply hb1 c
        rw [lastOr_none]
        exact hc
      · rw [htexto]
        exact hb2
      · rw [htexto]
        exact hns
  refine ⟨hline, ?_⟩
  intro texto page campo vs rec hmem hrec
  simp only [extract_from_text_chars] at hmem
  have hall : ∀ v ∈ (splitNl texto).flatMap
      (fun l => if trimChars l = [] then [] else extract_from_line_chars l page),
      v ∈ (splitNl texto).flatMap
        (fun l => if trimChars l = [] then [] else extract_from_line_chars l page) :=
    fun v hv => hv
  have hg := foldl_group_sound
    (fun w => w ∈ (splitNl texto).flatMap
      (fun l => if trimChars l = [] then [] else extract_from_line_chars l page))
    ((splitNl texto).flatMap
      (fun l => if trimChars l = [] then [] else extract_from_line_chars l page))
    [] hall (by intro cl hcl; cases hcl)
    (campo, vs) hmem rec hrec
  refine ⟨hg.1, ?_⟩
  rcases List.mem_flatMap.mp hg.2 with ⟨linha, hlin, hrec3⟩
  by_cases ht : trimChars linha = []
  · rw [if_pos ht] at hrec3
    cases hrec3
  · rw [if_neg ht] at hrec3
    exact ⟨linha, hlin, hrec3⟩

/-- Witness for C1 on the concrete line `"SALDO 1"`. -/
theorem C1_values_only_from_labeled_numerals_witness :
    (lvW.rotulo, lvW.campo) ∈ ROTULOS_VALIDOS ∧
    ∃ pre labm gap rest,
      "SALDO 1".data = pre ++ (labm ++ (gap ++ (lvW.valor_texto.data ++ rest))) ∧
      labm.map upperChar = lvW.rotulo.data.map upperChar ∧
      (∀ c, pre.getLast? = some c → isWordChar c = false) ∧
      (∀ c, (gap ++ (lvW.valor_texto.data ++ rest)).head? = some c →
        isWordChar c = false) ∧
      GapShape gap ∧ NumShape lvW.valor_texto.data :=
  C1_values_only_from_labeled_numerals.1 "SALDO 1".data 1 lvW (by decide)

end SistemaConvenio
